import Mathlib

/-
Verification of the IEEE-Formatter analysis-and-transformation pipeline.

The Python sources (app/parser.py, app/citation_converter.py, app/formatter.py,
app/compliance_scorer.py, app/issue_detector.py, app/change_tracker.py) are
shallowly embedded below: Python `str` is Lean `String` with explicit
re-implementations of the `str` methods and of the few anchored regular
expressions the code uses; Python `float` is `ℚ`; Python dicts keyed by
strings or section types are association lists with dict
insert/overwrite/lookup semantics; `uuid.uuid4()` identifiers are abstracted
by the `id : String` field (no claim depends on their concrete value).
-/

namespace IEEEPaper

/-! ## Python string primitives -/

/-- Python `str` whitespace test (the ASCII whitespace characters). -/
def isPySpace (c : Char) : Bool :=
  c == ' ' || c == '\t' || c == '\n' || c == '\r' || c == '\x0b' || c == '\x0c'

def stripLeftChars (l : List Char) : List Char := l.dropWhile isPySpace

def stripRightChars (l : List Char) : List Char := (l.reverse.dropWhile isPySpace).reverse

/-- Python `str.strip()`. -/
def pyStrip (s : String) : String := ⟨stripRightChars (stripLeftChars s.data)⟩

/-- Worker for `pySplitWs`: accumulates the current (reversed) token. -/
def splitWsAux : List Char → List Char → List (List Char)
  | [], cur => if cur.isEmpty then [] else [cur.reverse]
  | c :: t, cur =>
    if isPySpace c then
      if cur.isEmpty then splitWsAux t [] else cur.reverse :: splitWsAux t []
    else splitWsAux t (c :: cur)

/-- Python `str.split()` with no argument: split on whitespace runs, no empty tokens. -/
def pySplitWs (s : String) : List String := (splitWsAux s.data []).map (fun l => ⟨l⟩)

/-- Python `len(s.split())`: the whitespace-token count of `s`. -/
def countTokens (s : String) : Nat := (pySplitWs s).length

/-- Worker for `pySplitOn`: split on a single separator character. -/
def splitOnCharAux (sep : Char) : List Char → List Char → List (List Char)
  | [], cur => [cur.reverse]
  | c :: t, cur =>
    if c == sep then cur.reverse :: splitOnCharAux sep t []
    else splitOnCharAux sep t (c :: cur)

/-- Python `s.split(sep)` for a one-character separator. -/
def pySplitOn (s : String) (sep : Char) : List String :=
  (splitOnCharAux sep s.data []).map (fun l => ⟨l⟩)

/-- Python `str.lower()` (ASCII case fold, all the sources use ASCII headings). -/
def pyLower (s : String) : String := ⟨s.data.map Char.toLower⟩

/-- Python `str.upper()`. -/
def pyUpper (s : String) : String := ⟨s.data.map Char.toUpper⟩

/-- Worker for `pyTitle`: `prevAlpha` records whether the previous character
was alphabetic. -/
def titleAux : Bool → List Char → List Char
  | _, [] => []
  | prevAlpha, c :: t =>
    if c.isAlpha then
      (if prevAlpha then c.toLower else c.toUpper) :: titleAux true t
    else
      c :: titleAux false t

/-- Python `str.title()`: first letter of every alphabetic run upper-cased,
the rest lower-cased. -/
def pyTitle (s : String) : String := ⟨titleAux false s.data⟩

/-- Python `str.capitalize()`. -/
def pyCapitalize (s : String) : String :=
  match s.data with
  | [] => ""
  | c :: t => ⟨c.toUpper :: t.map Char.toLower⟩

/-- Does `needle` occur as a contiguous sublist of the argument? -/
def infixScan (needle : List Char) : List Char → Bool
  | [] => needle.isEmpty
  | c :: t => needle.isPrefixOf (c :: t) || infixScan needle t

/-- Python `sub in s` substring containment. -/
def strContains (hay sub : String) : Bool := infixScan sub.data hay.data

/-- Python `s.startswith(pre)`. -/
def strStartsWith (s pre : String) : Bool := pre.data.isPrefixOf s.data

/-! ## Data model (app/models.py) -/

inductive SectionType where
  | TITLE
  | AUTHORS
  | AFFILIATION
  | ABSTRACT
  | KEYWORDS
  | INTRODUCTION
  | RELATED_WORK
  | LITERATURE_REVIEW
  | METHODOLOGY
  | RESULTS
  | DISCUSSION
  | CONCLUSION
  | FUTURE_WORK
  | ACKNOWLEDGMENTS
  | REFERENCES
  | APPENDIX
  | UNKNOWN
deriving DecidableEq, Repr

/-- The `str` value of each `SectionType` enum member. -/
def SectionType.value : SectionType → String
  | .TITLE => "Title"
  | .AUTHORS => "Authors"
  | .AFFILIATION => "Affiliation"
  | .ABSTRACT => "Abstract"
  | .KEYWORDS => "Keywords"
  | .INTRODUCTION => "Introduction"
  | .RELATED_WORK => "Related Work"
  | .LITERATURE_REVIEW => "Literature Review"
  | .METHODOLOGY => "Methodology"
  | .RESULTS => "Results"
  | .DISCUSSION => "Discussion"
  | .CONCLUSION => "Conclusion"
  | .FUTURE_WORK => "Future Work"
  | .ACKNOWLEDGMENTS => "Acknowledgments"
  | .REFERENCES => "References"
  | .APPENDIX => "Appendix"
  | .UNKNOWN => "Unknown"

structure FontRule where
  font_family : String
  font_size : Nat
  bold : Bool
  italic : Bool
  alignment : String
deriving DecidableEq, Repr

/-- `Section` is recursive through `subsections`, so it is an inductive type;
field accessors are defined below.  Field order matches `app/models.py`. -/
inductive Section where
  | mk : (id : String) → (type : SectionType) → (content : String) →
      (original_heading : Option String) → (formatted_heading : Option String) →
      (word_count : Nat) → (font_rule : Option FontRule) →
      (heading_font_rule : Option FontRule) → (subsections : Option (List Section)) →
      (is_subsection : Bool) → Section

def Section.id : Section → String
  | .mk v _ _ _ _ _ _ _ _ _ => v

def Section.type : Section → SectionType
  | .mk _ v _ _ _ _ _ _ _ _ => v

def Section.content : Section → String
  | .mk _ _ v _ _ _ _ _ _ _ => v

def Section.original_heading : Section → Option String
  | .mk _ _ _ v _ _ _ _ _ _ => v

def Section.formatted_heading : Section → Option String
  | .mk _ _ _ _ v _ _ _ _ _ => v

def Section.word_count : Section → Nat
  | .mk _ _ _ _ _ v _ _ _ _ => v

def Section.font_rule : Section → Option FontRule
  | .mk _ _ _ _ _ _ v _ _ _ => v

def Section.heading_font_rule : Section → Option FontRule
  | .mk _ _ _ _ _ _ _ v _ _ => v

def Section.subsections : Section → Option (List Section)
  | .mk _ _ _ _ _ _ _ _ v _ => v

def Section.is_subsection : Section → Bool
  | .mk _ _ _ _ _ _ _ _ _ v => v

/-- `model_copy` followed by a `content` assignment. -/
def Section.withContent : Section → String → Section
  | .mk i ty _ oh fh wc fr hfr sub isub, c => .mk i ty c oh fh wc fr hfr sub isub

/-- `model_copy` followed by `content` and `word_count` assignments
(the subsection-append path of the parser). -/
def Section.withContentWc : Section → String → Nat → Section
  | .mk i ty _ oh fh _ fr hfr sub isub, c, wc => .mk i ty c oh fh wc fr hfr sub isub

/-- `model_copy` followed by a `formatted_heading` assignment. -/
def Section.withFormattedHeading : Section → Option String → Section
  | .mk i ty c oh _ wc fr hfr sub isub, fh => .mk i ty c oh fh wc fr hfr sub isub

/-- `model_copy` followed by a `font_rule` assignment. -/
def Section.withFontRule : Section → Option FontRule → Section
  | .mk i ty c oh fh wc _ hfr sub isub, fr => .mk i ty c oh fh wc fr hfr sub isub

/-- `model_copy` followed by a `heading_font_rule` assignment. -/
def Section.withHeadingFontRule : Section → Option FontRule → Section
  | .mk i ty c oh fh wc fr _ sub isub, hfr => .mk i ty c oh fh wc fr hfr sub isub

/-- `model_copy` followed by a `subsections` assignment. -/
def Section.withSubsections : Section → Option (List Section) → Section
  | .mk i ty c oh fh wc fr hfr _ isub, sub => .mk i ty c oh fh wc fr hfr sub isub

structure ParsedDocument where
  sections : List Section
  metadata : List (String × String)

structure FormattedDocument where
  sections : List Section
  metadata : List (String × String)
  compliance_score : ℚ

inductive IssueSeverity where
  | HIGH
  | MEDIUM
  | LOW
deriving DecidableEq, Repr

/-- `Issue`; the Python field `section` is called `sectionRef` here because
`section` is a Lean keyword.  `current`/`expected` are `Any` in Python; they
are embedded as strings (numbers rendered by `toString`). -/
structure Issue where
  type : String
  sectionRef : Option String
  severity : IssueSeverity
  message : String
  current : Option String
  expected : Option String

structure Fix where
  section_id : String
  type : String
  original : Option String
  formatted : Option String
  reason : String

/-- The five-component breakdown; the Python code uses a dict with exactly
these five keys, embedded here as a record.  The same record shape also
carries the five weights. -/
structure Breakdown where
  required_sections : ℚ
  section_order : ℚ
  abstract_compliance : ℚ
  heading_hierarchy : ℚ
  formatting_consistency : ℚ
deriving DecidableEq, Repr

structure ComplianceScore where
  score : ℚ
  breakdown : Breakdown
  weights : Breakdown

/-! ## Section Type Classifier (app/parser.py, `DocumentParser.detect_section_type`) -/

def isRomanChar (c : Char) : Bool := ['i', 'v', 'x', 'l', 'c', 'd', 'm'].contains c

/-- `re.sub(r'^[ivxlcdm]+\.\s+', '', l)`: the pattern is anchored, so at most
the leading occurrence is removed.  `[ivxlcdm]+` is matched by its maximal
run (no shorter run can be followed by `.`, since `.` is not a roman
character). -/
def stripRomanNumMarker (l : List Char) : List Char :=
  let run := l.takeWhile isRomanChar
  let rest := l.drop run.length
  if run.isEmpty then l
  else
    match rest with
    | '.' :: rest2 =>
      let ws := rest2.takeWhile isPySpace
      if ws.isEmpty then l else rest2.drop ws.length
    | _ => l

/-- `re.sub(r'^\d+\.\s+', '', l)`. -/
def stripArabicNumMarker (l : List Char) : List Char :=
  let run := l.takeWhile Char.isDigit
  let rest := l.drop run.length
  if run.isEmpty then l
  else
    match rest with
    | '.' :: rest2 =>
      let ws := rest2.takeWhile isPySpace
      if ws.isEmpty then l else rest2.drop ws.length
    | _ => l

/-- `re.sub(r'^WORD\s+\d+:?\s*', '', l)` for a literal `WORD`
(used with "section" and "part"). -/
def stripWordNumMarker (word : List Char) (l : List Char) : List Char :=
  if word.isPrefixOf l then
    let rest := l.drop word.length
    let ws := rest.takeWhile isPySpace
    if ws.isEmpty then l
    else
      let rest2 := rest.drop ws.length
      let digits := rest2.takeWhile Char.isDigit
      if digits.isEmpty then l
      else
        let rest3 := rest2.drop digits.length
        let rest4 := match rest3 with
          | ':' :: r => r
          | r => r
        rest4.drop (rest4.takeWhile isPySpace).length
  else l

def kwAbstract : List String := ["abstract", "summary"]
def kwKeywords : List String := ["keywords", "index terms", "key words"]
def kwMethodology : List String := ["methodology", "methods", "approach", "method"]
def kwResults : List String :=
  ["results", "findings", "experiments", "experimental results", "data", "key finding"]
def kwConclusion : List String :=
  ["conclusion", "concluding remarks", "conclusions", "ending", "final thought",
   "final remarks", "closing"]
def kwReferences : List String := ["references", "bibliography", "works cited"]
def kwRelatedWork : List String :=
  ["related work", "related works", "background", "backgrounds"]
def kwLiterature : List String := ["literature review", "literature"]
def kwDiscussion : List String :=
  ["discussion", "analysis", "threat", "impact", "implication", "broader",
   "what individuals can do", "recommendations", "solutions"]
def kwFutureWork : List String :=
  ["future work", "future works", "future research", "what next"]
def kwAcknowledgments : List String :=
  ["acknowledgment", "acknowledgments", "acknowledgement", "acknowledgements"]
def kwAppendix : List String := ["appendix", "appendices"]
def kwAuthors : List String := ["authors", "author"]
def kwAffiliation : List String := ["affiliation", "affiliations", "institution"]

/-- `any(keyword in heading for keyword in kws)`. -/
def containsAny (heading : String) (kws : List String) : Bool :=
  kws.any (fun k => strContains heading k)

/-- `DocumentParser.detect_section_type` (app/parser.py).  The keyword rules
appear in exactly the order of the Python conditional chain; in particular
the Discussion rule sits between Literature Review and Future Work. -/
def detect_section_type (heading : String) (_content : String) : SectionType :=
  let heading_lower := pyStrip (pyLower heading)
  let c1 := stripRomanNumMarker heading_lower.data
  let c2 := stripArabicNumMarker c1
  let c3 := stripWordNumMarker "section".data c2
  let c4 := stripWordNumMarker "part".data c3
  let heading_clean := pyStrip ⟨c4⟩
  if containsAny heading_clean kwAbstract then .ABSTRACT
  else if containsAny heading_clean kwKeywords then .KEYWORDS
  else if strContains heading_clean "intro" && heading_clean.length < 15 then .INTRODUCTION
  else if strContains heading_clean "introduction" then .INTRODUCTION
  else if containsAny heading_clean kwMethodology then .METHODOLOGY
  else if containsAny heading_clean kwResults then .RESULTS
  else if containsAny heading_clean kwConclusion then .CONCLUSION
  else if containsAny heading_clean kwReferences then .REFERENCES
  else if containsAny heading_clean kwRelatedWork then .RELATED_WORK
  else if containsAny heading_clean kwLiterature then .LITERATURE_REVIEW
  else if containsAny heading_clean kwDiscussion then .DISCUSSION
  else if containsAny heading_clean kwFutureWork then .FUTURE_WORK
  else if containsAny heading_clean kwAcknowledgments then .ACKNOWLEDGMENTS
  else if containsAny heading_clean kwAppendix then .APPENDIX
  else if containsAny heading_clean kwAuthors then .AUTHORS
  else if containsAny heading_clean kwAffiliation then .AFFILIATION
  else .UNKNOWN

/-! ## Citation Converter (app/citation_converter.py) -/

def isAsciiUpper (c : Char) : Bool := 'A' ≤ c && c ≤ 'Z'

def isAsciiLower (c : Char) : Bool := 'a' ≤ c && c ≤ 'z'

/-- `CitationConverter` instance state: `citation_map` (a dict keyed by
strings) and `next_citation_number`. -/
structure CitState where
  map : List (String × Nat)
  next : Nat

/-- A fresh converter, as built by `CitationConverter.__init__`. -/
def CitState.fresh : CitState := ⟨[], 1⟩

/-- Python dict membership `k in m`. -/
def dictContains (m : List (String × Nat)) (k : String) : Bool :=
  m.any (fun p => decide (p.1 = k))

/-- Python dict assignment `m[k] = v`: overwrite if present, append otherwise. -/
def dictAssign (m : List (String × Nat)) (k : String) (v : Nat) : List (String × Nat) :=
  if dictContains m k then
    m.map (fun p => if p.1 = k then (k, v) else p)
  else m ++ [(k, v)]

/-- Python dict read `m[k]` (defaulting to 0; every read in the source is
guarded by membership). -/
def dictGet (m : List (String × Nat)) (k : String) : Nat :=
  match m.find? (fun p => decide (p.1 = k)) with
  | some p => p.2
  | none => 0

/-- `CitationConverter._is_citation_start`. -/
def is_citation_start (line : String) : Bool :=
  -- `^\[\d+\]`
  (match line.data with
   | '[' :: t =>
     let ds := t.takeWhile Char.isDigit
     !ds.isEmpty && (match t.drop ds.length with | ']' :: _ => true | _ => false)
   | _ => false) ||
  -- `^\d+\.`
  (let ds := line.data.takeWhile Char.isDigit
   !ds.isEmpty && (match line.data.drop ds.length with | '.' :: _ => true | _ => false)) ||
  -- bullets
  strStartsWith line "•" || strStartsWith line "-" || strStartsWith line "*" ||
  -- `^[A-Z][a-z]+,\s+[A-Z]` (author-name pattern)
  (match line.data with
   | c :: t =>
     isAsciiUpper c &&
     (let low := t.takeWhile isAsciiLower
      !low.isEmpty &&
      (match t.drop low.length with
       | ',' :: r =>
         let ws := r.takeWhile isPySpace
         !ws.isEmpty && (match r.drop ws.length with
           | d :: _ => isAsciiUpper d
           | [] => false)
       | _ => false))
   | [] => false)

/-- `CitationConverter._remove_citation_prefix`: strip a leading `[\d+]`,
`\d+.`, or bullet marker (each pattern anchored, with trailing `\s*`),
then `strip()`. -/
def strip_citation_marker (line : String) : String :=
  let l0 := line.data
  -- `re.sub(r'^\[\d+\]\s*', '', line)`
  let l1 :=
    match l0 with
    | '[' :: t =>
      let ds := t.takeWhile Char.isDigit
      if ds.isEmpty then l0
      else match t.drop ds.length with
        | ']' :: r => r.drop (r.takeWhile isPySpace).length
        | _ => l0
    | _ => l0
  -- `re.sub(r'^\d+\.\s*', '', line)`
  let l2 :=
    let ds := l1.takeWhile Char.isDigit
    if ds.isEmpty then l1
    else match l1.drop ds.length with
      | '.' :: r => r.drop (r.takeWhile isPySpace).length
      | _ => l1
  -- `re.sub(r'^[•\-*]\s*', '', line)`
  let l3 :=
    match l2 with
    | c :: r =>
      if c == '•' || c == '-' || c == '*' then r.drop (r.takeWhile isPySpace).length
      else l2
    | [] => l2
  pyStrip ⟨l3⟩

/-- The line-based segmentation loop of `CitationConverter._extract_citations`:
blank lines close the current entry, entry-start lines flush and open a new
entry (with their marker stripped), other lines continue the current entry. -/
def extractLinesAux : List String → List String → List String
  | [], cur => if cur.isEmpty then [] else [String.intercalate " " cur]
  | line :: rest, cur =>
    let l := pyStrip line
    if l = "" then
      if cur.isEmpty then extractLinesAux rest []
      else String.intercalate " " cur :: extractLinesAux rest []
    else if is_citation_start l then
      if cur.isEmpty then extractLinesAux rest [strip_citation_marker l]
      else String.intercalate " " cur :: extractLinesAux rest [strip_citation_marker l]
    else extractLinesAux rest (cur ++ [l])

/-- The line-based phase of `_extract_citations` on the whole body. -/
def extractCitationsLines (references_content : String) : List String :=
  extractLinesAux (pySplitOn references_content '\n') []

/-- `re.split(r'\.\s+(?=[A-Z])', content)`: split at a period followed by
whitespace followed by an ASCII capital (the capital, being a lookahead, is
kept).  `fuel` is consumed one character per step, so `content.length`
suffices; the `0` case is unreachable. -/
def sentenceSplitAux : Nat → List Char → List Char → List (List Char)
  | _, [], cur => [cur.reverse]
  | 0, l, cur => [cur.reverse ++ l]
  | f + 1, '.' :: t, cur =>
    let ws := t.takeWhile isPySpace
    if ws.isEmpty then sentenceSplitAux f t ('.' :: cur)
    else
      let rest := t.drop ws.length
      match rest with
      | c :: _ =>
        if isAsciiUpper c then cur.reverse :: sentenceSplitAux f rest []
        else sentenceSplitAux f t ('.' :: cur)
      | [] => sentenceSplitAux f t ('.' :: cur)
  | f + 1, c :: t, cur => sentenceSplitAux f t (c :: cur)

/-- The sentence-split fallback of `_extract_citations`:
`[c.strip() + '.' for c in re.split(...) if c.strip()]`. -/
def sentenceFallback (references_content : String) : List String :=
  ((sentenceSplitAux references_content.data.length references_content.data []).map
      (fun l => pyStrip ⟨l⟩)).filterMap
    (fun c => if c = "" then none else some (c ++ "."))

/-- `CitationConverter._extract_citations`. -/
def extract_citations (references_content : String) : List String :=
  let citations := extractCitationsLines references_content
  if citations.isEmpty ∧ pyStrip references_content ≠ "" then
    sentenceFallback references_content
  else citations

/-- `CitationConverter._build_citation_map`: resets the state, then keys each
entry by its first 100 characters (stripped) and numbers it sequentially. -/
def build_citation_map (citations : List String) : CitState :=
  citations.foldl
    (fun st c =>
      ⟨dictAssign st.map (pyStrip ⟨c.data.take 100⟩) st.next, st.next + 1⟩)
    CitState.fresh

/-- `CitationConverter._format_references_section`. -/
def format_references_section (citations : List String) : String :=
  String.intercalate "\n\n"
    (citations.enum.map (fun p => "[" ++ toString (p.1 + 1) ++ "] " ++ p.2))

/-- `CitationConverter._get_citation_number`: running discovery in the shared
`citation_map`, first-seen-gets-next-integer. -/
def get_citation_number (st : CitState) (citation_text : String) : String × CitState :=
  let key := pyStrip citation_text
  let st' : CitState :=
    if dictContains st.map key then st
    else ⟨dictAssign st.map key st.next, st.next + 1⟩
  ("[" ++ toString (dictGet st'.map key) ++ "]", st')

/-- Matcher for `\s+et\s+al\.` (the optional tail of the author group).
Returns the matched characters and the rest. -/
def matchEtAl (l : List Char) : Option (List Char × List Char) :=
  let ws := l.takeWhile isPySpace
  if ws.isEmpty then none
  else
    match l.drop ws.length with
    | 'e' :: 't' :: r2 =>
      let ws2 := r2.takeWhile isPySpace
      if ws2.isEmpty then none
      else
        match r2.drop ws2.length with
        | 'a' :: 'l' :: '.' :: r3 =>
          some (ws ++ ['e', 't'] ++ ws2 ++ ['a', 'l', '.'], r3)
        | _ => none
    | _ => none

/-- Matcher for `[A-Z][a-z]+(?:\s+et\s+al\.)?`. -/
def matchAuthorCore (l : List Char) : Option (List Char × List Char) :=
  match l with
  | c :: t =>
    if isAsciiUpper c then
      let low := t.takeWhile isAsciiLower
      if low.isEmpty then none
      else
        let rest := t.drop low.length
        match matchEtAl rest with
        | some (ea, rest2) => some ((c :: low) ++ ea, rest2)
        | none => some (c :: low, rest)
    else none
  | [] => none

/-- Matcher for `,?\s+\d{4}` followed by the closing delimiter. -/
def matchYearClose (close : Char) (l : List Char) : Option (List Char × List Char) :=
  let (comma, r1) :=
    match l with
    | ',' :: r => (([','] : List Char), r)
    | r => (([] : List Char), r)
  let ws := r1.takeWhile isPySpace
  if ws.isEmpty then none
  else
    let r2 := r1.drop ws.length
    let ds := r2.take 4
    if ds.length = 4 ∧ ds.all Char.isDigit then
      match r2.drop 4 with
      | c :: r3 => if c == close then some (comma ++ ws ++ ds ++ [close], r3) else none
      | [] => none
    else none

/-- Matcher for `\(([A-Z][a-z]+(?:\s+et\s+al\.)?),?\s+\d{4}\)` and its
square-bracket variant, parameterised by the delimiters. -/
def matchDelimCitation (openC closeC : Char) (l : List Char) :
    Option (List Char × List Char) :=
  match l with
  | c :: t =>
    if c == openC then
      match matchAuthorCore t with
      | some (core, r1) =>
        match matchYearClose closeC r1 with
        | some (tail, r2) => some (openC :: core ++ tail, r2)
        | none => none
      | none => none
    else none
  | [] => none

/-- Matcher for `([A-Z][a-z]+(?:\s+et\s+al\.)?)\s+\(\d{4}\)`; returns
(whole match, group 1, rest). -/
def matchAuthorParenYear (l : List Char) : Option (List Char × List Char × List Char) :=
  match matchAuthorCore l with
  | some (core, r1) =>
    let ws := r1.takeWhile isPySpace
    if ws.isEmpty then none
    else
      match r1.drop ws.length with
      | '(' :: r2 =>
        let ds := r2.take 4
        if ds.length = 4 ∧ ds.all Char.isDigit then
          match r2.drop 4 with
          | ')' :: r3 => some (core ++ ws ++ '(' :: ds ++ [')'], core, r3)
          | _ => none
        else none
      | _ => none
  | none => none

/-- `re.sub(pattern, lambda m: self._get_citation_number(m.group(0)), content)`:
left-to-right non-overlapping scan; each match is replaced wholesale by the
assigned number.  One unit of `fuel` is consumed per step and every step
consumes at least one character, so `content.length` suffices. -/
def subWholeMatch (matcher : List Char → Option (List Char × List Char)) :
    Nat → List Char → CitState → List Char × CitState
  | _, [], st => ([], st)
  | 0, l, st => (l, st)
  | f + 1, c :: t, st =>
    match matcher (c :: t) with
    | some (whole, rest) =>
      let (numStr, st1) := get_citation_number st ⟨whole⟩
      let (out, st2) := subWholeMatch matcher f rest st1
      (numStr.data ++ out, st2)
    | none =>
      let (out, st1) := subWholeMatch matcher f t st
      (c :: out, st1)

/-- The third rewrite pass: `Author (YYYY)` keeps the author token and
replaces only from the match with `"{group1} [n]"`. -/
def subAuthorYear : Nat → List Char → CitState → List Char × CitState
  | _, [], st => ([], st)
  | 0, l, st => (l, st)
  | f + 1, c :: t, st =>
    match matchAuthorParenYear (c :: t) with
    | some (whole, core, rest) =>
      let (numStr, st1) := get_citation_number st ⟨whole⟩
      let (out, st2) := subAuthorYear f rest st1
      (core ++ ' ' :: numStr.data ++ out, st2)
    | none =>
      let (out, st1) := subAuthorYear f t st
      (c :: out, st1)

/-- `CitationConverter._convert_intext_citations`: the three rewrite passes,
threading the shared converter state. -/
def convert_intext_citations (st : CitState) (s : Section) : Section × CitState :=
  let c0 := s.content.data
  let r1 := subWholeMatch (matchDelimCitation '(' ')') c0.length c0 st
  let r2 := subWholeMatch (matchDelimCitation '[' ']') r1.1.length r1.1 r1.2
  let r3 := subAuthorYear r2.1.length r2.1 r2.2
  (s.withContent ⟨r3.1⟩, r3.2)

/-- One iteration of the conversion loop of `convert_references`: the
References section gets the renumbered body, every other section goes
through the in-text rewrite. -/
def convertStep (refsIdx : Nat) (citations : List String)
    (acc : List Section × CitState) (p : Nat × Section) : List Section × CitState :=
  if p.1 = refsIdx then
    (acc.1 ++ [p.2.withContent (format_references_section citations)], acc.2)
  else
    let r := convert_intext_citations acc.2 p.2
    (acc.1 ++ [r.1], r.2)

/-- `CitationConverter.convert_references` on a fresh converter (as the
pipeline constructs one per document).  Also returns the final converter
state, whose map length is `get_citation_count`. -/
def convert_references (sections : List Section) : List Section × CitState :=
  match sections.find? (fun s => decide (s.type = SectionType.REFERENCES)) with
  | none => (sections, CitState.fresh)
  | some refs =>
    let refsIdx := sections.findIdx (fun s => decide (s.type = SectionType.REFERENCES))
    let citations := extract_citations refs.content
    let st0 := build_citation_map citations
    sections.enum.foldl (convertStep refsIdx citations) ([], st0)

/-- `CitationConverter.get_citation_count`. -/
def get_citation_count (st : CitState) : Nat := st.map.length

/-! ## Formatting Rules Engine (app/formatter.py) -/

/-- Python truthiness of an `Optional[str]`: `None` and `""` are falsy. -/
def optStrTruthy : Option String → Bool
  | some s => decide (s ≠ "")
  | none => false

/-- The per-type font table of `RulesParser._get_default_rules` (all body
section types, including Unknown, share the 10pt justified rule). -/
def default_font_rules : SectionType → FontRule
  | .TITLE => ⟨"Times New Roman", 24, true, false, "center"⟩
  | .AUTHORS => ⟨"Times New Roman", 10, false, false, "center"⟩
  | .AFFILIATION => ⟨"Times New Roman", 10, false, true, "center"⟩
  | .ABSTRACT => ⟨"Times New Roman", 9, false, false, "justify"⟩
  | .KEYWORDS => ⟨"Times New Roman", 9, false, true, "justify"⟩
  | _ => ⟨"Times New Roman", 10, false, false, "justify"⟩

/-- The fixed 16-slot canonical section order (`section_order` in
`RulesParser._get_default_rules`). -/
def section_order : List SectionType :=
  [.TITLE, .AUTHORS, .AFFILIATION, .ABSTRACT, .KEYWORDS, .INTRODUCTION,
   .RELATED_WORK, .LITERATURE_REVIEW, .METHODOLOGY, .RESULTS, .DISCUSSION,
   .CONCLUSION, .FUTURE_WORK, .ACKNOWLEDGMENTS, .REFERENCES, .APPENDIX]

/-- `IEEEFormatter.apply_font_rules` (every type is a key of the table, so
the `else` default branch of the Python code is never taken). -/
def apply_font_rules (s : Section) : Section :=
  s.withFontRule (some (default_font_rules s.type))

/-- One step of building `sections_by_type`: append to the existing bucket of
the section's type, or open a new bucket. -/
def addToBucket (m : List (SectionType × List Section)) (s : Section) :
    List (SectionType × List Section) :=
  if m.any (fun p => decide (p.1 = s.type)) then
    m.map (fun p => if p.1 = s.type then (p.1, p.2 ++ [s]) else p)
  else m ++ [(s.type, [s])]

/-- The `sections_by_type` dict of `IEEEFormatter.reorder_sections`. -/
def sections_by_type (l : List Section) : List (SectionType × List Section) :=
  l.foldl addToBucket []

/-- Dict lookup in `sections_by_type` (keys are unique by construction). -/
def bucketLookup (m : List (SectionType × List Section)) (t : SectionType) :
    Option (List Section) :=
  (m.find? (fun p => decide (p.1 = t))).map (fun p => p.2)

/-- `IEEEFormatter.reorder_sections`: walk the canonical order and emit each
present bucket; section types outside the canonical order (i.e. Unknown) have
no slot and are dropped. -/
def reorder_sections (l : List Section) : List Section :=
  section_order.foldl
    (fun acc t =>
      match bucketLookup (sections_by_type l) t with
      | some b => acc ++ b
      | none => acc)
    []

/-- The value/symbol table of `IEEEFormatter._to_roman`. -/
def romanPairs : List (Nat × String) :=
  [(1000, "M"), (900, "CM"), (500, "D"), (400, "CD"), (100, "C"), (90, "XC"),
   (50, "L"), (40, "XL"), (10, "X"), (9, "IX"), (5, "V"), (4, "IV"), (1, "I")]

/-- `IEEEFormatter._to_roman`: at each table entry the numeral is appended
`num // val` times and `num` is reduced to `num % val`. -/
def to_roman (num : Nat) : String :=
  (romanPairs.foldl
    (fun acc p => (acc.1 ++ String.join (List.replicate (acc.2 / p.1) p.2), acc.2 % p.1))
    ("", num)).1

/-- The 11 numbered section types of `IEEEFormatter.apply_numbering`. -/
def numbered_types : List SectionType :=
  [.INTRODUCTION, .RELATED_WORK, .LITERATURE_REVIEW, .METHODOLOGY, .RESULTS,
   .DISCUSSION, .CONCLUSION, .FUTURE_WORK, .ACKNOWLEDGMENTS, .REFERENCES,
   .APPENDIX]

/-- Main-heading font rule of `apply_numbering` (bold 10pt). -/
def mainHeadingFontRule : FontRule := ⟨"Times New Roman", 10, true, false, "left"⟩

/-- Subsection-heading font rule of `apply_numbering` (italic 10pt). -/
def subHeadingFontRule : FontRule := ⟨"Times New Roman", 10, false, true, "left"⟩

/-- The numbered-heading text: lower-case, strip a leading roman or arabic
numeral marker, strip, canonicalize "final thought(s)"/"final remark(s)" to
"conclusion", then `"<Roman>. <ALL CAPS>"`. -/
def formatNumberedHeading (roman : String) (original : String) : String :=
  let lower := pyLower original
  let c1 := stripRomanNumMarker lower.data
  let c2 := stripArabicNumMarker c1
  let clean := pyStrip ⟨c2⟩
  let clean :=
    if strContains clean "final thought" || strContains clean "final remark" then
      "conclusion"
    else clean
  roman ++ ". " ++ pyUpper clean

/-- Subsection numbering of `apply_numbering`: sequential letters, title-cased
headings, italic rule. -/
def numberSubsections (subs : List Section) : List Section :=
  subs.enum.map
    (fun p =>
      let letter : String := ⟨[Char.ofNat (65 + p.1)]⟩
      let fh :=
        if optStrTruthy p.2.original_heading then
          letter ++ ". " ++ pyTitle (p.2.original_heading.getD "")
        else letter ++ ". Subsection"
      (p.2.withFormattedHeading (some fh)).withHeadingFontRule (some subHeadingFontRule))

/-- The per-section body of `IEEEFormatter.apply_numbering`, carrying the
roman counter. -/
def applyNumberingStep (acc : List Section × Nat) (s : Section) : List Section × Nat :=
  if decide (s.type ∈ numbered_types) then
    let roman := to_roman acc.2
    let fh :=
      if optStrTruthy s.original_heading then
        formatNumberedHeading roman (s.original_heading.getD "")
      else roman ++ ". " ++ pyUpper s.type.value
    let s1 := (s.withFormattedHeading (some fh)).withHeadingFontRule (some mainHeadingFontRule)
    let s2 :=
      match s1.subsections with
      | some subs =>
        if subs.isEmpty then s1 else s1.withSubsections (some (numberSubsections subs))
      | none => s1
    (acc.1 ++ [s2], acc.2 + 1)
  else
    let s1 :=
      if s.type = SectionType.ABSTRACT then
        (s.withFormattedHeading (some "ABSTRACT")).withHeadingFontRule (some mainHeadingFontRule)
      else if s.type = SectionType.KEYWORDS then
        (s.withFormattedHeading (some "INDEX TERMS")).withHeadingFontRule (some mainHeadingFontRule)
      else if s.type = SectionType.AUTHORS then
        s.withFormattedHeading none
      else if s.type = SectionType.AFFILIATION then
        s.withFormattedHeading none
      else if s.type = SectionType.TITLE then
        s.withFormattedHeading none
      else if optStrTruthy s.original_heading then
        (s.withFormattedHeading (some (pyUpper (s.original_heading.getD "")))).withHeadingFontRule
          (some mainHeadingFontRule)
      else if s.type ≠ SectionType.TITLE then
        (s.withFormattedHeading (some (pyUpper s.type.value))).withHeadingFontRule
          (some mainHeadingFontRule)
      else s
    (acc.1 ++ [s1], acc.2)

/-- `IEEEFormatter.apply_numbering` (the roman counter starts at 1). -/
def apply_numbering (sections : List Section) : List Section :=
  (sections.foldl applyNumberingStep ([], 1)).1

/-- `IEEEFormatter.format`: font rules, then citation conversion on a fresh
converter, then reordering, then numbering; metadata gains the four output
flags. -/
def format (document : ParsedDocument) : FormattedDocument :=
  let fontApplied := document.sections.map apply_font_rules
  let (converted, citState) := convert_references fontApplied
  let reordered := reorder_sections converted
  let numbered := apply_numbering reordered
  { sections := numbered
    metadata := document.metadata ++
      [("formatted", "True"), ("ieee_compliant", "True"),
       ("citations_converted", "True"),
       ("citation_count", toString (get_citation_count citState))]
    compliance_score := 0 }

/-! ## Structure Builder (app/parser.py, `DocumentParser.parse`)

A docx paragraph is abstracted to its trimmed-relevant data: raw text, style
name, and the truthiness of the `bold` flag of each run.  `uuid.uuid4()` ids
are modelled as counter-generated fresh strings (no claim depends on their
concrete value, only on identity). -/

structure Para where
  text : String
  style : String
  runsBold : List Bool

/-- `DocumentParser._is_heading`. -/
def is_heading (p : Para) : Bool :=
  strStartsWith p.style "Heading 1" ||
    (match p.runsBold with
     | b :: _ => b && decide ((pyStrip p.text).length < 100) &&
         !strStartsWith p.style "Heading 2"
     | [] => false)

/-- `DocumentParser._is_subheading`. -/
def is_subheading (p : Para) : Bool := strStartsWith p.style "Heading 2"

/-- `DocumentParser._extract_title`: the stripped text of the first
non-empty paragraph. -/
def extract_title : List Para → Option String
  | [] => none
  | p :: rest =>
    let t := pyStrip p.text
    if t = "" then extract_title rest else some t

/-- The pre-heading collection loop of `parse`: paragraphs equal to the title
are skipped, the first heading breaks, and non-empty paragraphs are collected
once a title exists. -/
def collectPreHeading (title : Option String) : List Para → List String
  | [] => []
  | p :: rest =>
    if title.isSome ∧ pyStrip p.text = title.getD "" then
      collectPreHeading title rest
    else if is_heading p then []
    else if pyStrip p.text ≠ "" ∧ title.isSome then
      pyStrip p.text :: collectPreHeading title rest
    else collectPreHeading title rest

/-- The mutable locals of the main section loop of `parse`. -/
structure ParseState where
  curHeading : Option String
  curContent : List String
  curSubs : List Section
  out : List Section
  counter : Nat

/-- Closing the current section (`if current_heading is not None: ...`):
join the collected paragraphs, classify, and emit. -/
def flushSection (curHeading : Option String) (curContent : List String)
    (curSubs : List Section) (n : Nat) : List Section × Nat :=
  match curHeading with
  | none => ([], n)
  | some h =>
    let content_text := pyStrip (String.intercalate "\n" curContent)
    let ty := detect_section_type h content_text
    ([Section.mk ("s" ++ toString n) ty content_text (some h) none
        (if content_text = "" then 0 else countTokens content_text) none none
        (if curSubs.isEmpty then none else some curSubs) false],
      n + 1)

/-- The main section loop of `parse`: title and pre-heading paragraphs are
skipped by text equality, headings flush and open sections, subheadings open
placeholder subsections, and plain paragraphs append to the last open
subsection, else to the main body. -/
def mainLoop (title : Option String) (preList : List String) :
    List Para → ParseState → ParseState
  | [], st => st
  | p :: rest, st =>
    let tstrip := pyStrip p.text
    if title.isSome ∧ tstrip = title.getD "" then mainLoop title preList rest st
    else if preList.contains tstrip then mainLoop title preList rest st
    else if is_heading p then
      let flushed := flushSection st.curHeading st.curContent st.curSubs st.counter
      mainLoop title preList rest
        ⟨some tstrip, [], [], st.out ++ flushed.1, flushed.2⟩
    else if is_subheading p then
      let sub := Section.mk ("s" ++ toString st.counter) .UNKNOWN "" (some tstrip)
        none 0 none none none true
      mainLoop title preList rest
        { st with curSubs := st.curSubs ++ [sub], counter := st.counter + 1 }
    else if tstrip ≠ "" then
      if !st.curSubs.isEmpty then
        let updated :=
          match st.curSubs.getLast? with
          | some lastSub =>
            let newContent :=
              if lastSub.content = "" then tstrip
              else lastSub.content ++ "\n" ++ tstrip
            st.curSubs.dropLast ++
              [lastSub.withContentWc newContent (countTokens newContent)]
          | none => st.curSubs
        mainLoop title preList rest { st with curSubs := updated }
      else mainLoop title preList rest { st with curContent := st.curContent ++ [tstrip] }
    else mainLoop title preList rest st

/-- `DocumentParser.parse` on the paragraph stream. -/
def parse (paras : List Para) (file_path : String) : ParsedDocument :=
  let title := extract_title paras
  let titlePart : List Section × Nat :=
    match title with
    | some t =>
      ([Section.mk "s0" .TITLE t none none (countTokens t) none none none false], 1)
    | none => ([], 0)
  let preList := collectPreHeading title paras
  let prePart : List Section × Nat :=
    match preList with
    | [] => ([], titlePart.2)
    | authors :: rest =>
      let authorsSec := Section.mk ("s" ++ toString titlePart.2) .AUTHORS authors
        none none (countTokens authors) none none none false
      match rest with
      | [] => ([authorsSec], titlePart.2 + 1)
      | _ :: _ =>
        let affiliation_text := String.intercalate "\n" rest
        ([authorsSec,
          Section.mk ("s" ++ toString (titlePart.2 + 1)) .AFFILIATION
            affiliation_text none none (countTokens affiliation_text) none none
            none false],
          titlePart.2 + 2)
  let st := mainLoop title preList paras ⟨none, [], [], [], prePart.2⟩
  let flushed := flushSection st.curHeading st.curContent st.curSubs st.counter
  let sections := titlePart.1 ++ prePart.1 ++ st.out ++ flushed.1
  { sections := sections
    metadata :=
      [("original_file", file_path),
       ("total_sections", toString sections.length),
       ("total_words", toString (sections.foldl (fun a s => a + s.word_count) 0))] }

/-! ## Issue Detector (app/issue_detector.py) -/

/-- The required section types (`REQUIRED_SECTIONS`, a Python set, embedded
as the list literal in source order). -/
def required_sections_list : List SectionType :=
  [.ABSTRACT, .KEYWORDS, .INTRODUCTION, .METHODOLOGY, .RESULTS, .CONCLUSION,
   .REFERENCES]

/-- `expected_positions.get(t, -1)`: the canonical index of a type, `-1` when
absent (i.e. for Unknown). -/
def ieeeIdx (t : SectionType) : Int :=
  match section_order.findIdx? (fun u => decide (u = t)) with
  | some i => Int.ofNat i
  | none => -1

/-- `IssueDetector._detect_missing_sections`. -/
def detect_missing_sections (document : ParsedDocument) : List Issue :=
  required_sections_list.filterMap
    (fun t =>
      if document.sections.any (fun s => decide (s.type = t)) then none
      else some
        { type := "missing_required_section"
          sectionRef := some t.value
          severity := .HIGH
          message := "Required section '" ++ t.value ++ "' is missing"
          current := none
          expected := some t.value })

/-- The walking loop of `IssueDetector._detect_section_order_issues`,
tracking the maximum canonical index seen so far (`last_position`). -/
def detectOrderAux : List Section → Int → List Issue
  | [], _ => []
  | s :: rest, lastPos =>
    if s.type = SectionType.UNKNOWN then detectOrderAux rest lastPos
    else
      let expectedPos := ieeeIdx s.type
      let here :=
        if expectedPos ≠ -1 ∧ expectedPos < lastPos then
          match section_order.filter (fun st => decide (ieeeIdx st = lastPos)) with
          | prev :: _ =>
            [{ type := "section_out_of_order"
               sectionRef := some s.type.value
               severity := .MEDIUM
               message := "Section '" ++ s.type.value ++ "' appears after '" ++
                 prev.value ++ "' but should come before it"
               current := some s.type.value
               expected := some ("Should appear before " ++ prev.value) }]
          | [] => []
        else []
      let lastPos' := if expectedPos ≠ -1 then max lastPos expectedPos else lastPos
      here ++ detectOrderAux rest lastPos'

/-- `IssueDetector._detect_section_order_issues`. -/
def detect_section_order_issues (document : ParsedDocument) : List Issue :=
  detectOrderAux document.sections (-1)

/-- The word-count issue payload shared by both out-of-range branches. -/
def abstractWcIssue (word_count : Nat) : Issue :=
  { type := "abstract_word_count_violation"
    sectionRef := some SectionType.ABSTRACT.value
    severity := .MEDIUM
    message := "Abstract has " ++ toString word_count ++
      " words but should have 150-250 words"
    current := some (toString word_count)
    expected := some "150-250 words" }

/-- `IssueDetector._detect_abstract_word_count_issues`: one issue per
Abstract section whose word count is outside [150, 250]. -/
def detect_abstract_word_count_issues (document : ParsedDocument) : List Issue :=
  let abstract_sections :=
    document.sections.filter (fun s => decide (s.type = SectionType.ABSTRACT))
  if abstract_sections.isEmpty then []
  else
    abstract_sections.filterMap
      (fun a =>
        if a.word_count < 150 then some (abstractWcIssue a.word_count)
        else if a.word_count > 250 then some (abstractWcIssue a.word_count)
        else none)

/-- The 13 section types that need a heading (everything except Title,
Authors, Affiliation and Unknown) — shared by `IssueDetector` and
`ComplianceScorer`. -/
def sections_needing_headings : List SectionType :=
  [.ABSTRACT, .KEYWORDS, .INTRODUCTION, .RELATED_WORK, .LITERATURE_REVIEW,
   .METHODOLOGY, .RESULTS, .DISCUSSION, .CONCLUSION, .FUTURE_WORK,
   .ACKNOWLEDGMENTS, .REFERENCES, .APPENDIX]

/-- `not section.original_heading or not section.original_heading.strip()`. -/
def headingMissing (s : Section) : Bool :=
  match s.original_heading with
  | none => true
  | some h => decide (h = "") || decide (pyStrip h = "")

/-- `IssueDetector._detect_missing_headings`. -/
def detect_missing_headings (document : ParsedDocument) : List Issue :=
  document.sections.filterMap
    (fun s =>
      if decide (s.type ∈ sections_needing_headings) && headingMissing s then
        some
          { type := "missing_section_heading"
            sectionRef := some s.type.value
            severity := .LOW
            message := "Section '" ++ s.type.value ++ "' is missing a heading"
            current := none
            expected := some ("Heading for " ++ s.type.value) }
      else none)

/-- `IssueDetector.detect_issues`: the four checks, concatenated in order. -/
def detect_issues (document : ParsedDocument) : List Issue :=
  detect_missing_sections document ++ detect_section_order_issues document ++
    detect_abstract_word_count_issues document ++ detect_missing_headings document

/-! ## Compliance Scorer (app/compliance_scorer.py) -/

/-- The five component weights (`ComplianceScorer.WEIGHTS`); Python floats
0.30/0.25/0.20/0.15/0.10 embedded as the exact rationals they denote. -/
def WEIGHTS : Breakdown :=
  { required_sections := 0.30
    section_order := 0.25
    abstract_compliance := 0.20
    heading_hierarchy := 0.15
    formatting_consistency := 0.10 }

/-- Python `round(x, 2)` on the score.  (Mathlib `round` resolves exact
halves upward while Python rounds them to even; no value in these claims
sits on a half.) -/
def pyRound2 (x : ℚ) : ℚ := ((round (x * 100) : ℤ) : ℚ) / 100

/-- `ComplianceScorer._score_required_sections`. -/
def score_required_sections (document : FormattedDocument) : ℚ :=
  let present_required :=
    (required_sections_list.filter
      (fun t => document.sections.any (fun s => decide (s.type = t)))).length
  let total_required := required_sections_list.length
  if total_required = 0 then 1 else (present_required : ℚ) / (total_required : ℚ)

/-- `ComplianceScorer._score_section_order`. -/
def score_section_order (_document : FormattedDocument) (issues : List Issue) : ℚ :=
  if (issues.filter (fun i => decide (i.type = "section_out_of_order"))).isEmpty then 1
  else 0.7

/-- `ComplianceScorer._score_abstract_compliance`: only the first Abstract
section (in document order) is consulted. -/
def score_abstract_compliance (document : FormattedDocument) : ℚ :=
  match document.sections.filter (fun s => decide (s.type = SectionType.ABSTRACT)) with
  | [] => 0
  | a :: _ => if 150 ≤ a.word_count ∧ a.word_count ≤ 250 then 1 else 0.6

/-- `section.formatted_heading and section.formatted_heading.strip()`. -/
def hasFormattedHeading (s : Section) : Bool :=
  match s.formatted_heading with
  | none => false
  | some h => decide (h ≠ "") && decide (pyStrip h ≠ "")

/-- `ComplianceScorer._score_heading_hierarchy`. -/
def score_heading_hierarchy (document : FormattedDocument) : ℚ :=
  let needing :=
    document.sections.filter (fun s => decide (s.type ∈ sections_needing_headings))
  if needing.isEmpty then 1
  else ((needing.filter hasFormattedHeading).length : ℚ) / (needing.length : ℚ)

/-- `ComplianceScorer._score_formatting_consistency`. -/
def score_formatting_consistency (_document : FormattedDocument)
    (issues : List Issue) : ℚ :=
  let high := (issues.filter (fun i => decide (i.severity = IssueSeverity.HIGH))).length
  max 0 (1 - (high : ℚ) * 0.2)

/-- The weighted total `sum(breakdown[c] * WEIGHTS[c] for c in WEIGHTS)`. -/
def weightedTotal (b : Breakdown) : ℚ :=
  b.required_sections * WEIGHTS.required_sections +
    b.section_order * WEIGHTS.section_order +
    b.abstract_compliance * WEIGHTS.abstract_compliance +
    b.heading_hierarchy * WEIGHTS.heading_hierarchy +
    b.formatting_consistency * WEIGHTS.formatting_consistency

/-- `ComplianceScorer.calculate`. -/
def calculate (document : FormattedDocument) (issues : List Issue) : ComplianceScore :=
  let breakdown : Breakdown :=
    { required_sections := score_required_sections document
      section_order := score_section_order document issues
      abstract_compliance := score_abstract_compliance document
      heading_hierarchy := score_heading_hierarchy document
      formatting_consistency := score_formatting_consistency document issues }
  { score := pyRound2 (weightedTotal breakdown * 100)
    breakdown := breakdown
    weights := WEIGHTS }

/-! ## Change Tracker (app/change_tracker.py) -/

/-- Python dict `{s.id: idx for idx, s in enumerate(ss)}`: keys in first-seen
order, values overwritten by later duplicates. -/
def positionsDict (ss : List Section) : List (String × Nat) :=
  (ss.enum.foldl (fun m p => dictAssign m p.2.id p.1) [])

/-- Option-valued dict lookup. -/
def dictFindPos (m : List (String × Nat)) (k : String) : Option Nat :=
  (m.find? (fun p => decide (p.1 = k))).map (fun p => p.2)

/-- Python dict `{s.id: s for s in ss}` lookup: the last section with the
given id wins. -/
def sectionById (ss : List Section) (k : String) : Option Section :=
  (ss.filter (fun s => decide (s.id = k))).getLast?

/-- The fix record emitted for one reordered section id. -/
def reorderFix (after : List Section) (k : String) (beforePos afterPos : Nat) : Fix :=
  let ty :=
    match after.find? (fun s => decide (s.id = k)) with
    | some s => s.type
    | none => SectionType.UNKNOWN
  { section_id := k
    type := "section_reordering"
    original := some ("Position " ++ toString (beforePos + 1))
    formatted := some ("Position " ++ toString (afterPos + 1))
    reason := "Section '" ++ ty.value ++
      "' reordered to match IEEE conference format standard sequence" }

/-- One iteration of the `for section_id in after_positions` loop of
`_track_section_reordering`. -/
def reorderStep (before after : List Section) (fixes : List Fix)
    (p : String × Nat) : List Fix :=
  match dictFindPos (positionsDict before) p.1 with
  | some beforePos =>
    if beforePos ≠ p.2 then fixes ++ [reorderFix after p.1 beforePos p.2] else fixes
  | none => fixes

/-- `ChangeTracker._track_section_reordering`: one fix per id present in both
documents whose (1-based) position changed. -/
def track_section_reordering (before after : List Section) : List Fix :=
  (positionsDict after).foldl (reorderStep before after) []

/-- `ChangeTracker._track_heading_changes`. -/
def track_heading_changes (b a : Section) : List Fix :=
  if !optStrTruthy b.original_heading && optStrTruthy a.formatted_heading then
    [{ section_id := a.id
       type := "heading_added"
       original := none
       formatted := a.formatted_heading
       reason := "Added IEEE-compliant heading for " ++ a.type.value ++ " section" }]
  else if optStrTruthy b.original_heading && optStrTruthy a.formatted_heading then
    if b.original_heading ≠ a.formatted_heading then
      [{ section_id := a.id
         type := "heading_formatting"
         original := b.original_heading
         formatted := a.formatted_heading
         reason := "Applied IEEE heading format: Roman numerals, ALL CAPS, and bold styling" }]
    else []
  else []

/-- The rule description emitted by `_track_font_changes`. -/
def fontRuleDescription (r : FontRule) : String :=
  r.font_family ++ ", " ++ toString r.font_size ++ "pt, " ++
    (if r.bold then "Bold" else "Normal") ++ ", " ++
    (if r.italic then "Italic" else "Regular") ++ ", " ++
    pyCapitalize r.alignment ++ " aligned"

/-- `ChangeTracker._track_font_changes`. -/
def track_font_changes (b a : Section) : List Fix :=
  (match b.font_rule, a.font_rule with
   | none, some r =>
     [{ section_id := a.id
        type := "font_formatting"
        original := some "No font formatting"
        formatted := some (fontRuleDescription r)
        reason := "Applied IEEE font rules for " ++ a.type.value ++ " section" }]
   | _, _ => []) ++
  (match b.heading_font_rule, a.heading_font_rule with
   | none, some r =>
     [{ section_id := a.id
        type := "heading_font_formatting"
        original := some "No heading font formatting"
        formatted := some (r.font_family ++ ", " ++ toString r.font_size ++ "pt, Bold")
        reason := "Applied IEEE heading font rules: Times New Roman, 10pt, Bold" }]
   | _, _ => [])

/-- `ChangeTracker._track_content_changes`. -/
def track_content_changes (b a : Section) : List Fix :=
  if b.content ≠ a.content then
    let before_words : Int := countTokens b.content
    let after_words : Int := countTokens a.content
    let word_diff := after_words - before_words
    if |word_diff| > 0 ∨ pyStrip b.content ≠ pyStrip a.content then
      let description := "Grammar and spelling corrections applied" ++
        (if word_diff > 0 then " (+" ++ toString word_diff ++ " words)"
         else if word_diff < 0 then " (" ++ toString word_diff ++ " words)"
         else "")
      [{ section_id := a.id
         type := "grammar_correction"
         original := some (toString before_words ++ " words")
         formatted := some (toString after_words ++ " words")
         reason := description }]
    else []
  else []

/-- `ChangeTracker._track_section_type_changes`. -/
def track_section_type_changes (b a : Section) : List Fix :=
  if b.type ≠ a.type then
    [{ section_id := a.id
       type := "section_type_correction"
       original := some b.type.value
       formatted := some a.type.value
       reason := "Section type detected and corrected based on content and heading keywords" }]
  else []

/-- One iteration of the per-section comparison loop of `track_changes`. -/
def perSectionStep (before : List Section) (fixes : List Fix) (a : Section) :
    List Fix :=
  match sectionById before a.id with
  | some b =>
    fixes ++ track_heading_changes b a ++ track_font_changes b a ++
      track_content_changes b a ++ track_section_type_changes b a
  | none => fixes

/-- `ChangeTracker.track_changes`: reordering fixes first, then the four
per-section comparisons for every after-section whose id exists in the
before document. -/
def track_changes (document_before : ParsedDocument)
    (document_after : FormattedDocument) : List Fix :=
  let reorderFixes :=
    track_section_reordering document_before.sections document_after.sections
  document_after.sections.foldl (perSectionStep document_before.sections)
    reorderFixes

/-! ## Derived predicates and concrete example inputs used by the claims -/

/-- The spec's Section invariant: `word count = whitespace-token count of
body`. -/
def wordCountInv (s : Section) : Prop := s.word_count = countTokens s.content

/-- `wordCountInv` for a section and all its subsections. -/
def sectionOK (s : Section) : Prop :=
  wordCountInv s ∧ ∀ sub ∈ s.subsections.getD [], wordCountInv sub

/-- The specification-side description of canonical reordering: a stable
bucket sort, i.e. the concatenation, in canonical slot order, of the
input-order buckets of each type. -/
def stableBucketSort (l : List Section) : List Section :=
  (section_order.map (fun t => l.filter (fun s => decide (s.type = t)))).flatten

/-- Example sections for the C2 counterexample: an Introduction with one
in-text marker, and References bodies with one and with two entries. -/
def c2ex_intro : Section :=
  .mk "i1" .INTRODUCTION "Previous work (Smith, 2020) showed." none none 5
    none none none false

def c2ex_refs1 : Section :=
  .mk "r1" .REFERENCES "Jones, A. (2021). B." none none 4 none none none false

def c2ex_refs2 : Section :=
  .mk "r1" .REFERENCES "Jones, A. (2021). B.\n\nBrown, B. (2019). C." none none 8
    none none none false

/-- C3 counterexample input: a document whose only section has type Unknown. -/
def c3ex_doc : ParsedDocument :=
  ⟨[.mk "u1" .UNKNOWN "orphan body" none none 2 none none none false], []⟩

/-- C3 witness input: a single-Introduction document. -/
def c3ex_keep : Section :=
  .mk "i1" .INTRODUCTION "intro body" (some "Introduction") none 2 none none none false

def c3ex_keepdoc : ParsedDocument := ⟨[c3ex_keep], []⟩

/-- C4 counterexample input: an Introduction whose marker shrinks under
rewriting, plus a References section. -/
def c4ex_intro : Section :=
  .mk "i1" .INTRODUCTION "See (Smith, 2020)." none none 3 none none none false

def c4ex_refs : Section :=
  .mk "r1" .REFERENCES "Jones, A. (2021). B." none none 4 none none none false

/-- Sections of given word counts for the scorer examples. -/
def mkAbstract (i : String) (wc : Nat) : Section :=
  .mk i .ABSTRACT "abstract body" none none wc none none none false

/-- A document whose only section is an Abstract of `wc` words. -/
def absDoc (wc : Nat) : FormattedDocument := ⟨[mkAbstract "a1" wc], [], 0⟩

/-- A two-Abstract document (first in range, second out of range), for C10. -/
def c10ex_doc : FormattedDocument := ⟨[mkAbstract "a1" 200, mkAbstract "a2" 10], [], 0⟩

/-- The same two-Abstract document as a pre-format document, for the issue
detector half of C10. -/
def c10ex_parsed : ParsedDocument := ⟨[mkAbstract "a1" 200, mkAbstract "a2" 10], []⟩

/-- C9 witness input: the before document owns section "b1" only. -/
def c9ex_before : ParsedDocument :=
  ⟨[.mk "b1" .INTRODUCTION "intro text" (some "Introduction") none 2 none none
      none false], []⟩

/-- C9 witness input: the after document contains a section "new1" that has
no counterpart in the before document. -/
def c9ex_newSection : Section :=
  .mk "new1" .APPENDIX "appendix text" (some "Appendix") none 2 none none none false

def c9ex_after : FormattedDocument :=
  ⟨[.mk "b1" .INTRODUCTION "intro text" (some "Introduction")
      (some "I. INTRODUCTION") 2 none none none false, c9ex_newSection], [], 0⟩

/-- C5 witness input: [Results, Introduction, Abstract] (the spec's example). -/
def c5ex_sections : List Section :=
  [.mk "a" .RESULTS "r" none none 1 none none none false,
   .mk "b" .INTRODUCTION "i" none none 1 none none none false,
   .mk "c" .ABSTRACT "x" none none 1 none none none false]

/-- C4 witness input: a two-paragraph manuscript. -/
def c4ex_paras : List Para :=
  [⟨"My Title", "Normal", [false]⟩, ⟨"Abstract", "Heading 1", [false]⟩,
   ⟨"Short abstract body.", "Normal", [false]⟩]

/-- C8 witness input: a References list whose sections lack a References
type. -/
def c8ex_sections : List Section :=
  [.mk "i1" .INTRODUCTION "no refs here" none none 3 none none none false]

/-! ## Helper lemmas -/

@[simp] theorem Section.id_mk (i ty c oh fh wc fr hfr sub isub) :
    (Section.mk i ty c oh fh wc fr hfr sub isub).id = i := rfl

@[simp] theorem Section.type_mk (i ty c oh fh wc fr hfr sub isub) :
    (Section.mk i ty c oh fh wc fr hfr sub isub).type = ty := rfl

@[simp] theorem Section.content_mk (i ty c oh fh wc fr hfr sub isub) :
    (Section.mk i ty c oh fh wc fr hfr sub isub).content = c := rfl

@[simp] theorem Section.original_heading_mk (i ty c oh fh wc fr hfr sub isub) :
    (Section.mk i ty c oh fh wc fr hfr sub isub).original_heading = oh := rfl

@[simp] theorem Section.formatted_heading_mk (i ty c oh fh wc fr hfr sub isub) :
    (Section.mk i ty c oh fh wc fr hfr sub isub).formatted_heading = fh := rfl

@[simp] theorem Section.word_count_mk (i ty c oh fh wc fr hfr sub isub) :
    (Section.mk i ty c oh fh wc fr hfr sub isub).word_count = wc := rfl

@[simp] theorem Section.subsections_mk (i ty c oh fh wc fr hfr sub isub) :
    (Section.mk i ty c oh fh wc fr hfr sub isub).subsections = sub := rfl

@[simp] theorem Section.id_withContent (s : Section) (c : String) :
    (s.withContent c).id = s.id := by cases s; rfl

@[simp] theorem Section.type_withContent (s : Section) (c : String) :
    (s.withContent c).type = s.type := by cases s; rfl

@[simp] theorem Section.content_withContent (s : Section) (c : String) :
    (s.withContent c).content = c := by cases s; rfl

@[simp] theorem Section.word_count_withContent (s : Section) (c : String) :
    (s.withContent c).word_count = s.word_count := by cases s; rfl

@[simp] theorem Section.id_withContentWc (s : Section) (c : String) (n : Nat) :
    (s.withContentWc c n).id = s.id := by cases s; rfl

@[simp] theorem Section.content_withContentWc (s : Section) (c : String) (n : Nat) :
    (s.withContentWc c n).content = c := by cases s; rfl

@[simp] theorem Section.word_count_withContentWc (s : Section) (c : String) (n : Nat) :
    (s.withContentWc c n).word_count = n := by cases s; rfl

@[simp] theorem Section.subsections_withContentWc (s : Section) (c : String) (n : Nat) :
    (s.withContentWc c n).subsections = s.subsections := by cases s; rfl

@[simp] theorem Section.id_withFormattedHeading (s : Section) (fh : Option String) :
    (s.withFormattedHeading fh).id = s.id := by cases s; rfl

@[simp] theorem Section.type_withFormattedHeading (s : Section) (fh : Option String) :
    (s.withFormattedHeading fh).type = s.type := by cases s; rfl

@[simp] theorem Section.id_withFontRule (s : Section) (fr : Option FontRule) :
    (s.withFontRule fr).id = s.id := by cases s; rfl

@[simp] theorem Section.type_withFontRule (s : Section) (fr : Option FontRule) :
    (s.withFontRule fr).type = s.type := by cases s; rfl

@[simp] theorem Section.content_withFontRule (s : Section) (fr : Option FontRule) :
    (s.withFontRule fr).content = s.content := by cases s; rfl

@[simp] theorem Section.word_count_withFontRule (s : Section) (fr : Option FontRule) :
    (s.withFontRule fr).word_count = s.word_count := by cases s; rfl

@[simp] theorem Section.id_withHeadingFontRule (s : Section) (fr : Option FontRule) :
    (s.withHeadingFontRule fr).id = s.id := by cases s; rfl

@[simp] theorem Section.type_withHeadingFontRule (s : Section) (fr : Option FontRule) :
    (s.withHeadingFontRule fr).type = s.type := by cases s; rfl

@[simp] theorem Section.id_withSubsections (s : Section) (sub : Option (List Section)) :
    (s.withSubsections sub).id = s.id := by cases s; rfl

@[simp] theorem Section.type_withSubsections (s : Section) (sub : Option (List Section)) :
    (s.withSubsections sub).type = s.type := by cases s; rfl

/-! ## C1 -/

/-- C1: the claim says the Discussion keyword rule is evaluated last, so a
heading containing both a Discussion keyword and a keyword of any other
category — including Future Work — is never classified Discussion.  The code
evaluates the Discussion rule *before* the Future Work, Acknowledgments,
Appendix, Authors and Affiliation rules (contradicting its own
"check this last" comment): the heading "Future Work Analysis" contains the
Future Work keyword "future work", yet the classifier returns Discussion. -/
theorem C1_discussion_rule_shadows_future_work :
    detect_section_type "Future Work Analysis" "" = SectionType.DISCUSSION ∧
    strContains (pyStrip (pyLower "Future Work Analysis")) "future work" = true ∧
    detect_section_type "Acknowledgments Impact" "" = SectionType.DISCUSSION := by
  refine ⟨by decide, by decide, by decide⟩

/-! ## C7 -/

/-- C7: the abstract-compliance component is decided by the first Abstract
section: word count exactly 150 or 250 scores 1.0, exactly 149 or 251 scores
0.6, and a document with no Abstract section scores 0. -/
theorem C7_abstract_compliance_boundaries (document : FormattedDocument)
    (issues : List Issue) :
    (document.sections.filter (fun s => decide (s.type = SectionType.ABSTRACT)) = [] →
      (calculate document issues).breakdown.abstract_compliance = 0) ∧
    ∀ a rest,
      document.sections.filter (fun s => decide (s.type = SectionType.ABSTRACT)) =
        a :: rest →
      ((a.word_count = 150 ∨ a.word_count = 250 →
        (calculate document issues).breakdown.abstract_compliance = 1) ∧
       (a.word_count = 149 ∨ a.word_count = 251 →
        (calculate document issues).breakdown.abstract_compliance = 0.6)) := by
  constructor
  · intro h
    simp only [calculate, score_abstract_compliance]
    rw [h]
  · intro a rest h
    constructor
    · intro hwc
      simp only [calculate, score_abstract_compliance]
      rw [h]
      show (if 150 ≤ a.word_count ∧ a.word_count ≤ 250 then (1 : ℚ) else 0.6) = 1
      rcases hwc with h1 | h1 <;> rw [if_pos (by omega)]
    · intro hwc
      simp only [calculate, score_abstract_compliance]
      rw [h]
      show (if 150 ≤ a.word_count ∧ a.word_count ≤ 250 then (1 : ℚ) else 0.6) = 0.6
      rcases hwc with h1 | h1 <;> rw [if_neg (by omega)]

/-- C7 witness: concrete one-Abstract documents at the four boundary word
counts and an empty document, instantiating the theorem. -/
theorem C7_abstract_compliance_boundaries_witness :
    (calculate (absDoc 150) []).breakdown.abstract_compliance = 1 ∧
    (calculate (absDoc 250) []).breakdown.abstract_compliance = 1 ∧
    (calculate (absDoc 149) []).breakdown.abstract_compliance = 0.6 ∧
    (calculate (absDoc 251) []).breakdown.abstract_compliance = 0.6 ∧
    (calculate (⟨[], [], 0⟩ : FormattedDocument) []).breakdown.abstract_compliance = 0 :=
  ⟨((C7_abstract_compliance_boundaries (absDoc 150) []).2 (mkAbstract "a1" 150) []
      rfl).1 (Or.inl rfl),
   ((C7_abstract_compliance_boundaries (absDoc 250) []).2 (mkAbstract "a1" 250) []
      rfl).1 (Or.inr rfl),
   ((C7_abstract_compliance_boundaries (absDoc 149) []).2 (mkAbstract "a1" 149) []
      rfl).2 (Or.inl rfl),
   ((C7_abstract_compliance_boundaries (absDoc 251) []).2 (mkAbstract "a1" 251) []
      rfl).2 (Or.inr rfl),
   (C7_abstract_compliance_boundaries (⟨[], [], 0⟩ : FormattedDocument) []).1 rfl⟩

/-! ## C6 -/

theorem score_required_sections_bounds (d : FormattedDocument) :
    0 ≤ score_required_sections d ∧ score_required_sections d ≤ 1 := by
  have h : (required_sections_list.filter
      (fun t => d.sections.any (fun s => decide (s.type = t)))).length ≤ 7 :=
    List.length_filter_le _ _
  unfold score_required_sections
  rw [show required_sections_list.length = 7 from rfl, if_neg (by norm_num)]
  refine ⟨by positivity, ?_⟩
  rw [div_le_one (by norm_num)]
  exact_mod_cast h

theorem score_section_order_bounds (d : FormattedDocument) (issues : List Issue) :
    0 ≤ score_section_order d issues ∧ score_section_order d issues ≤ 1 := by
  unfold score_section_order
  split <;> norm_num

theorem score_abstract_compliance_bounds (d : FormattedDocument) :
    0 ≤ score_abstract_compliance d ∧ score_abstract_compliance d ≤ 1 := by
  unfold score_abstract_compliance
  cases hl : d.sections.filter (fun s => decide (s.type = SectionType.ABSTRACT)) with
  | nil => norm_num
  | cons a rest =>
    show 0 ≤ (if 150 ≤ a.word_count ∧ a.word_count ≤ 250 then (1 : ℚ) else 0.6) ∧
      (if 150 ≤ a.word_count ∧ a.word_count ≤ 250 then (1 : ℚ) else 0.6) ≤ 1
    split <;> norm_num

theorem score_heading_hierarchy_bounds (d : FormattedDocument) :
    0 ≤ score_heading_hierarchy d ∧ score_heading_hierarchy d ≤ 1 := by
  unfold score_heading_hierarchy
  set needing :=
    d.sections.filter (fun s => decide (s.type ∈ sections_needing_headings)) with hn
  by_cases he : needing.isEmpty
  · rw [if_pos he]; norm_num
  · rw [if_neg he]
    have hne : needing ≠ [] := fun hnil => he (by rw [hnil]; rfl)
    have hpos : 0 < needing.length := List.length_pos.mpr hne
    have hle : (needing.filter hasFormattedHeading).length ≤ needing.length :=
      List.length_filter_le _ _
    constructor
    · positivity
    · rw [div_le_one (by exact_mod_cast hpos)]
      exact_mod_cast hle

theorem score_formatting_consistency_bounds (d : FormattedDocument)
    (issues : List Issue) :
    0 ≤ score_formatting_consistency d issues ∧
      score_formatting_consistency d issues ≤ 1 := by
  unfold score_formatting_consistency
  refine ⟨le_max_left _ _, max_le (by norm_num) ?_⟩
  have : (0 : ℚ) ≤
      ((issues.filter (fun i => decide (i.severity = IssueSeverity.HIGH))).length : ℚ)
        * 0.2 := by positivity
  linarith

theorem weightedTotal_bounds (b : Breakdown)
    (h1 : 0 ≤ b.required_sections ∧ b.required_sections ≤ 1)
    (h2 : 0 ≤ b.section_order ∧ b.section_order ≤ 1)
    (h3 : 0 ≤ b.abstract_compliance ∧ b.abstract_compliance ≤ 1)
    (h4 : 0 ≤ b.heading_hierarchy ∧ b.heading_hierarchy ≤ 1)
    (h5 : 0 ≤ b.formatting_consistency ∧ b.formatting_consistency ≤ 1) :
    0 ≤ weightedTotal b ∧ weightedTotal b ≤ 1 := by
  obtain ⟨h1a, h1b⟩ := h1
  obtain ⟨h2a, h2b⟩ := h2
  obtain ⟨h3a, h3b⟩ := h3
  obtain ⟨h4a, h4b⟩ := h4
  obtain ⟨h5a, h5b⟩ := h5
  simp only [weightedTotal, WEIGHTS]
  constructor <;> linarith

theorem pyRound2_bounds {x : ℚ} (h0 : 0 ≤ x) (h1 : x ≤ 100) :
    0 ≤ pyRound2 x ∧ pyRound2 x ≤ 100 := by
  unfold pyRound2
  have hl : (0 : ℤ) ≤ round (x * 100) := by
    rw [round_eq]
    exact Int.floor_nonneg.mpr (by linarith)
  have hu : round (x * 100) ≤ 10000 := by
    rw [round_eq]
    calc ⌊x * 100 + 1 / 2⌋ ≤ ⌊(10000 : ℚ) + 1 / 2⌋ := Int.floor_le_floor (by linarith)
      _ = 10000 := by norm_num
  constructor
  · apply div_nonneg _ (by norm_num)
    exact_mod_cast hl
  · rw [div_le_iff₀ (by norm_num : (0 : ℚ) < 100)]
    have : ((round (x * 100) : ℤ) : ℚ) ≤ 10000 := by exact_mod_cast hu
    linarith

/-- C6: the ComplianceScore produced by the scorer has five weights summing
to 1.0 (hence within 1e-3 of 1.0), every breakdown component lies in [0, 1],
and the aggregate score equals round(100 × Σ(component × weight), 2) and
lies in [0, 100] — for every formatted document and every issue list. -/
theorem C6_compliance_score_bounds (document : FormattedDocument)
    (issues : List Issue) :
    ((calculate document issues).weights.required_sections +
      (calculate document issues).weights.section_order +
      (calculate document issues).weights.abstract_compliance +
      (calculate document issues).weights.heading_hierarchy +
      (calculate document issues).weights.formatting_consistency = 1) ∧
    (0 ≤ (calculate document issues).breakdown.required_sections ∧
      (calculate document issues).breakdown.required_sections ≤ 1) ∧
    (0 ≤ (calculate document issues).breakdown.section_order ∧
      (calculate document issues).breakdown.section_order ≤ 1) ∧
    (0 ≤ (calculate document issues).breakdown.abstract_compliance ∧
      (calculate document issues).breakdown.abstract_compliance ≤ 1) ∧
    (0 ≤ (calculate document issues).breakdown.heading_hierarchy ∧
      (calculate document issues).breakdown.heading_hierarchy ≤ 1) ∧
    (0 ≤ (calculate document issues).breakdown.formatting_consistency ∧
      (calculate document issues).breakdown.formatting_consistency ≤ 1) ∧
    (calculate document issues).score =
      pyRound2 (100 * weightedTotal (calculate document issues).breakdown) ∧
    0 ≤ (calculate document issues).score ∧ (calculate document issues).score ≤ 100 := by
  have h1 := score_required_sections_bounds document
  have h2 := score_section_order_bounds document issues
  have h3 := score_abstract_compliance_bounds document
  have h4 := score_heading_hierarchy_bounds document
  have h5 := score_formatting_consistency_bounds document issues
  set B : Breakdown :=
    ⟨score_required_sections document, score_section_order document issues,
     score_abstract_compliance document, score_heading_hierarchy document,
     score_formatting_consistency document issues⟩ with hB
  have hwt := weightedTotal_bounds B h1 h2 h3 h4 h5
  have hsc := pyRound2_bounds (x := weightedTotal B * 100)
    (by linarith [hwt.1]) (by linarith [hwt.2])
  have hcal : calculate document issues =
      ⟨pyRound2 (weightedTotal B * 100), B, WEIGHTS⟩ := rfl
  rw [hcal]
  refine ⟨by norm_num [WEIGHTS], h1, h2, h3, h4, h5, ?_, hsc.1, hsc.2⟩
  show pyRound2 (weightedTotal B * 100) = pyRound2 (100 * weightedTotal B)
  rw [mul_comm (weightedTotal B) 100]

/-! ## C10 -/

theorem length_filterMap_wcIssue (l : List Section) :
    (l.filterMap (fun a =>
      if a.word_count < 150 then some (abstractWcIssue a.word_count)
      else if a.word_count > 250 then some (abstractWcIssue a.word_count)
      else none)).length =
    (l.filter (fun s =>
      decide (s.word_count < 150) || decide (250 < s.word_count))).length := by
  induction l with
  | nil => rfl
  | cons a t ih =>
    simp only [List.filterMap_cons, List.filter_cons]
    by_cases h1 : a.word_count < 150
    · simp [h1, ih]
    · by_cases h2 : a.word_count > 250
      · simp [h1, h2, ih]
      · simp [h1, h2, ih]

/-- C10: the abstract-compliance component of the compliance score depends
only on the word count of the first Abstract section in document order (two
documents whose first Abstracts have equal word counts get equal components,
whatever later Abstract sections hold), while the issue detector emits
exactly one word-count issue per out-of-range Abstract section. -/
theorem C10_first_abstract_scoring_vs_per_abstract_issues :
    (∀ (d₁ d₂ : FormattedDocument) (i₁ i₂ : List Issue),
      (d₁.sections.filter (fun s => decide (s.type = SectionType.ABSTRACT))).head?.map
          Section.word_count =
        (d₂.sections.filter (fun s => decide (s.type = SectionType.ABSTRACT))).head?.map
          Section.word_count →
      (calculate d₁ i₁).breakdown.abstract_compliance =
        (calculate d₂ i₂).breakdown.abstract_compliance) ∧
    ∀ (d : ParsedDocument),
      (detect_abstract_word_count_issues d).length =
        (d.sections.filter (fun s =>
          decide (s.type = SectionType.ABSTRACT) &&
            (decide (s.word_count < 150) || decide (250 < s.word_count)))).length := by
  constructor
  · intro d₁ d₂ i₁ i₂ h
    show score_abstract_compliance d₁ = score_abstract_compliance d₂
    unfold score_abstract_compliance
    cases hl1 : d₁.sections.filter (fun s => decide (s.type = SectionType.ABSTRACT)) with
    | nil =>
      cases hl2 : d₂.sections.filter (fun s => decide (s.type = SectionType.ABSTRACT)) with
      | nil => rfl
      | cons b t₂ => rw [hl1, hl2] at h; simp at h
    | cons a t₁ =>
      cases hl2 : d₂.sections.filter (fun s => decide (s.type = SectionType.ABSTRACT)) with
      | nil => rw [hl1, hl2] at h; simp at h
      | cons b t₂ =>
        rw [hl1, hl2] at h
        simp only [List.head?_cons, Option.map_some] at h
        injection h with h
        show (if 150 ≤ a.word_count ∧ a.word_count ≤ 250 then (1 : ℚ) else 0.6) =
          if 150 ≤ b.word_count ∧ b.word_count ≤ 250 then (1 : ℚ) else 0.6
        rw [h]
  · intro d
    unfold detect_abstract_word_count_issues
    by_cases he :
        (d.sections.filter (fun s => decide (s.type = SectionType.ABSTRACT))).isEmpty
    · rw [if_pos he]
      have hnil : d.sections.filter (fun s => decide (s.type = SectionType.ABSTRACT)) = [] :=
        List.isEmpty_iff.mp he
      rw [List.filter_congr (fun a _ => Bool.and_comm _ _), ← List.filter_filter, hnil]
      rfl
    · rw [if_neg he]
      rw [List.filter_congr (fun a _ => Bool.and_comm _ _), ← List.filter_filter]
      exact length_filterMap_wcIssue _

/-- C10 witness: a document with a second, out-of-range Abstract scores the
same component as a single-Abstract document with the same first word count,
while the detector reports exactly the one out-of-range Abstract. -/
theorem C10_first_abstract_scoring_vs_per_abstract_issues_witness :
    (calculate c10ex_doc []).breakdown.abstract_compliance =
      (calculate (absDoc 200) []).breakdown.abstract_compliance ∧
    (detect_abstract_word_count_issues c10ex_parsed).length = 1 :=
  ⟨C10_first_abstract_scoring_vs_per_abstract_issues.1 c10ex_doc (absDoc 200) [] []
      rfl,
   (C10_first_abstract_scoring_vs_per_abstract_issues.2 c10ex_parsed).trans
      (by decide)⟩

/-! ## C5 -/

theorem bucketLookup_cons (x : SectionType × List Section)
    (xs : List (SectionType × List Section)) (t : SectionType) :
    bucketLookup (x :: xs) t = if x.1 = t then some x.2 else bucketLookup xs t := by
  unfold bucketLookup
  by_cases h : x.1 = t <;> simp [List.find?_cons, h]

theorem bucketLookup_map_upd (m : List (SectionType × List Section)) (s : Section)
    (t : SectionType) :
    bucketLookup (m.map (fun p => if p.1 = s.type then (p.1, p.2 ++ [s]) else p)) t =
      if t = s.type then (bucketLookup m t).map (fun b => b ++ [s])
      else bucketLookup m t := by
  induction m with
  | nil => by_cases h : t = s.type <;> simp [bucketLookup, h]
  | cons x rest ih =>
    obtain ⟨k, v⟩ := x
    by_cases hks : k = s.type <;> by_cases hkt : k = t
    · have hts : t = s.type := by rw [← hkt, hks]
      simp [List.map_cons, bucketLookup_cons, hks, hkt, hts]
    · have hts : ¬t = s.type := fun h => hkt (by rw [hks, ← h])
      have hst : ¬s.type = t := fun h => hkt (hks.trans h)
      simp [List.map_cons, bucketLookup_cons, hks, hkt, hts, hst, ih]
    · have hts : ¬t = s.type := fun h => hks (hkt.trans h)
      simp [List.map_cons, bucketLookup_cons, hks, hkt, hts]
    · by_cases hts : t = s.type
      · subst hts
        simp [List.map_cons, bucketLookup_cons, hks, hkt, ih]
      · simp [List.map_cons, bucketLookup_cons, hks, hkt, hts, ih]

theorem bucketLookup_append_new (m : List (SectionType × List Section)) (s : Section)
    (t : SectionType) :
    bucketLookup (m ++ [(s.type, [s])]) t =
      (bucketLookup m t).or (if t = s.type then some [s] else none) := by
  unfold bucketLookup
  rw [List.find?_append]
  cases hf : m.find? (fun p => decide (p.1 = t)) with
  | some p => simp
  | none =>
    by_cases h : t = s.type
    · subst h; simp [List.find?_cons]
    · have h2 : ¬(s.type = t) := fun hh => h hh.symm
      simp [List.find?_cons, h, h2]

theorem any_iff_bucketLookup_isSome (m : List (SectionType × List Section))
    (t : SectionType) :
    m.any (fun p => decide (p.1 = t)) = true ↔ (bucketLookup m t).isSome := by
  unfold bucketLookup
  have hiso : ∀ o : Option (SectionType × List Section),
      (o.map (fun p => p.2)).isSome = o.isSome := by
    intro o; cases o <;> rfl
  rw [List.any_eq_true, hiso, List.find?_isSome]

theorem bucketLookup_addToBucket (m : List (SectionType × List Section)) (s : Section)
    (t : SectionType) :
    bucketLookup (addToBucket m s) t =
      if t = s.type then some ((bucketLookup m t).getD [] ++ [s])
      else bucketLookup m t := by
  unfold addToBucket
  by_cases hany : m.any (fun p => decide (p.1 = s.type)) = true
  · rw [if_pos hany, bucketLookup_map_upd]
    by_cases ht : t = s.type
    · rw [if_pos ht, if_pos ht]
      obtain ⟨b, hb⟩ := Option.isSome_iff_exists.mp
        ((any_iff_bucketLookup_isSome m s.type).mp hany)
      rw [ht, hb]
      rfl
    · rw [if_neg ht, if_neg ht]
  · rw [if_neg hany, bucketLookup_append_new]
    by_cases ht : t = s.type
    · rw [if_pos ht, if_pos ht]
      have hnone : bucketLookup m t = none := by
        rw [ht]
        cases hl : bucketLookup m s.type with
        | none => rfl
        | some b =>
          exact absurd ((any_iff_bucketLookup_isSome m s.type).mpr (by rw [hl]; rfl))
            hany
      rw [hnone]
      rfl
    · rw [if_neg ht, if_neg ht, Option.or_none]

theorem foldl_addToBucket_lookup (l : List Section)
    (m : List (SectionType × List Section)) (t : SectionType) :
    bucketLookup (l.foldl addToBucket m) t =
      if (l.filter (fun s => decide (s.type = t))).isEmpty then bucketLookup m t
      else some ((bucketLookup m t).getD [] ++ l.filter (fun s => decide (s.type = t))) := by
  induction l generalizing m with
  | nil => simp
  | cons s rest ih =>
    rw [List.foldl_cons, ih (addToBucket m s), bucketLookup_addToBucket]
    by_cases hst : s.type = t
    · have ht : t = s.type := hst.symm
      rw [if_pos ht]
      have hfc : (s :: rest).filter (fun x => decide (x.type = t)) =
          s :: rest.filter (fun x => decide (x.type = t)) := by
        simp [List.filter_cons, hst]
      rw [hfc]
      by_cases he : (rest.filter (fun x => decide (x.type = t))).isEmpty
      · rw [if_pos he]
        have hnil : rest.filter (fun x => decide (x.type = t)) = [] :=
          List.isEmpty_iff.mp he
        rw [hnil]
        simp
      · rw [if_neg he]
        simp [List.append_assoc]
    · have ht : ¬t = s.type := fun h => hst h.symm
      rw [if_neg ht]
      have hfc : (s :: rest).filter (fun x => decide (x.type = t)) =
          rest.filter (fun x => decide (x.type = t)) := by
        simp [List.filter_cons, hst]
      rw [hfc]

theorem sections_by_type_lookup (l : List Section) (t : SectionType) :
    bucketLookup (sections_by_type l) t =
      if (l.filter (fun s => decide (s.type = t))).isEmpty then none
      else some (l.filter (fun s => decide (s.type = t))) := by
  unfold sections_by_type
  rw [foldl_addToBucket_lookup]
  by_cases he : (l.filter (fun s => decide (s.type = t))).isEmpty
  · rw [if_pos he, if_pos he]; rfl
  · rw [if_neg he, if_neg he]; rfl

theorem reorder_foldl_eq (l : List Section) (os : List SectionType)
    (acc : List Section) :
    os.foldl
      (fun acc t =>
        match bucketLookup (sections_by_type l) t with
        | some b => acc ++ b
        | none => acc)
      acc =
    acc ++ (os.map (fun t => l.filter (fun s => decide (s.type = t)))).flatten := by
  induction os generalizing acc with
  | nil => simp
  | cons t rest ih =>
    rw [List.foldl_cons, List.map_cons, List.flatten_cons]
    rw [sections_by_type_lookup]
    by_cases he : (l.filter (fun s => decide (s.type = t))).isEmpty
    · rw [if_pos he]
      have hnil : l.filter (fun s => decide (s.type = t)) = [] := List.isEmpty_iff.mp he
      rw [ih, hnil]
      simp
    · rw [if_neg he, ih]
      simp

theorem reorder_sections_eq_stableBucketSort (l : List Section) :
    reorder_sections l = stableBucketSort l := by
  unfold reorder_sections stableBucketSort
  rw [reorder_foldl_eq]
  rfl

theorem mem_filter_type {l : List Section} {t : SectionType} {s : Section}
    (h : s ∈ l.filter (fun x => decide (x.type = t))) : s.type = t := by
  have := List.of_mem_filter h
  simpa using this

theorem filter_bucket_ne (l : List Section) {t u : SectionType} (h : u ≠ t) :
    (l.filter (fun s => decide (s.type = u))).filter
      (fun s => decide (s.type = t)) = [] := by
  rw [List.filter_filter]
  rw [List.filter_eq_nil_iff]
  intro a _
  simp only [Bool.and_eq_true, decide_eq_true_eq]
  rintro ⟨h1, h2⟩
  exact h (h2 ▸ h1 ▸ rfl)

theorem filter_bucket_self (l : List Section) (t : SectionType) :
    (l.filter (fun s => decide (s.type = t))).filter
      (fun s => decide (s.type = t)) = l.filter (fun s => decide (s.type = t)) := by
  rw [List.filter_filter]
  exact List.filter_congr (fun a _ => Bool.and_self _)

theorem flatten_buckets_nil (l : List Section) (t : SectionType)
    (os : List SectionType) (h : ∀ u ∈ os, u ≠ t) :
    ((os.map (fun u => l.filter (fun s => decide (s.type = u)))).map
      (List.filter (fun s => decide (s.type = t)))).flatten = [] := by
  induction os with
  | nil => rfl
  | cons o rest ih =>
    simp only [List.map_cons, List.flatten_cons]
    rw [filter_bucket_ne l (h o (List.mem_cons_self o rest)),
      ih (fun u hu => h u (List.mem_cons_of_mem o hu))]
    rfl

theorem flatten_buckets_single (l : List Section) (t : SectionType)
    (os : List SectionType) (hmem : t ∈ os) (hnd : os.Nodup) :
    ((os.map (fun u => l.filter (fun s => decide (s.type = u)))).map
      (List.filter (fun s => decide (s.type = t)))).flatten =
      l.filter (fun s => decide (s.type = t)) := by
  induction os with
  | nil => cases hmem
  | cons o rest ih =>
    simp only [List.map_cons, List.flatten_cons]
    by_cases ho : o = t
    · subst ho
      rw [filter_bucket_self]
      have hnotin : ∀ u ∈ rest, u ≠ o := by
        intro u hu he
        exact (List.nodup_cons.mp hnd).1 (he ▸ hu)
      rw [flatten_buckets_nil l o rest hnotin]
      simp
    · have hmem' : t ∈ rest := by
        cases List.mem_cons.mp hmem with
        | inl h => exact absurd h.symm ho
        | inr h => exact h
      rw [filter_bucket_ne l ho, ih hmem' (List.nodup_cons.mp hnd).2]
      rfl

/-- C5: canonical reordering is a stable bucket sort into the fixed 16-slot
order: the output equals the concatenation, in canonical order, of the
per-type input buckets; any two output sections are in canonical-index
order; and for every canonical type the output's sections of that type are
exactly the input's, in input order. -/
theorem C5_reorder_is_stable_bucket_sort (l : List Section) :
    reorder_sections l = stableBucketSort l ∧
    (reorder_sections l).Pairwise (fun a b => ieeeIdx a.type ≤ ieeeIdx b.type) ∧
    ∀ t : SectionType, t ≠ SectionType.UNKNOWN →
      (reorder_sections l).filter (fun s => decide (s.type = t)) =
        l.filter (fun s => decide (s.type = t)) := by
  refine ⟨reorder_sections_eq_stableBucketSort l, ?_, ?_⟩
  · rw [reorder_sections_eq_stableBucketSort]
    unfold stableBucketSort
    rw [List.pairwise_flatten]
    constructor
    · intro a ha
      obtain ⟨t, _, rfl⟩ := List.mem_map.mp ha
      apply List.pairwise_of_forall_mem_list
      intro x hx y hy
      rw [mem_filter_type hx, mem_filter_type hy]
    · rw [List.pairwise_map]
      have hord : section_order.Pairwise (fun t u => ieeeIdx t ≤ ieeeIdx u) := by decide
      apply hord.imp_of_mem
      intro t u _ _ hle x hx y hy
      rw [mem_filter_type hx, mem_filter_type hy]
      exact hle
  · intro t ht
    rw [reorder_sections_eq_stableBucketSort]
    unfold stableBucketSort
    rw [List.filter_flatten]
    have hmem : t ∈ section_order := by
      cases t <;> first | decide | exact absurd rfl ht
    have hnd : section_order.Nodup := by decide
    rw [List.map_map]
    exact flatten_buckets_single l t section_order hmem hnd

/-- C5 witness: the spec's example [Results, Introduction, Abstract]
instantiates the stability conjunct at type Results. -/
theorem C5_reorder_is_stable_bucket_sort_witness :
    reorder_sections c5ex_sections = stableBucketSort c5ex_sections ∧
    (reorder_sections c5ex_sections).filter
        (fun s => decide (s.type = SectionType.RESULTS)) =
      c5ex_sections.filter (fun s => decide (s.type = SectionType.RESULTS)) :=
  ⟨(C5_reorder_is_stable_bucket_sort c5ex_sections).1,
   (C5_reorder_is_stable_bucket_sort c5ex_sections).2.2 SectionType.RESULTS
     (by decide)⟩

/-! ## C9 -/

theorem mem_of_getLast?_eq_some {α : Type} {l : List α} {a : α}
    (h : l.getLast? = some a) : a ∈ l := by
  obtain ⟨hne, rfl⟩ := List.mem_getLast?_eq_getLast (Option.mem_def.mpr h)
  exact List.getLast_mem hne

theorem sectionById_mem {ss : List Section} {k : String} {b : Section}
    (h : sectionById ss k = some b) : b ∈ ss ∧ b.id = k := by
  unfold sectionById at h
  have hmem := mem_of_getLast?_eq_some h
  refine ⟨List.mem_of_mem_filter hmem, ?_⟩
  have := List.of_mem_filter hmem
  simpa using this

theorem track_heading_changes_section_id {b a : Section} {f : Fix}
    (h : f ∈ track_heading_changes b a) : f.section_id = a.id := by
  unfold track_heading_changes at h
  split at h
  · rw [List.mem_singleton.mp h]
  · split at h
    · split at h
      · rw [List.mem_singleton.mp h]
      · cases h
    · cases h

theorem track_font_changes_section_id {b a : Section} {f : Fix}
    (h : f ∈ track_font_changes b a) : f.section_id = a.id := by
  unfold track_font_changes at h
  rcases List.mem_append.mp h with h1 | h1
  · split at h1
    · rw [List.mem_singleton.mp h1]
    · cases h1
  · split at h1
    · rw [List.mem_singleton.mp h1]
    · cases h1

theorem track_content_changes_section_id {b a : Section} {f : Fix}
    (h : f ∈ track_content_changes b a) : f.section_id = a.id := by
  unfold track_content_changes at h
  dsimp only at h
  split at h
  · split at h
    · rw [List.mem_singleton.mp h]
    · cases h
  · cases h

theorem track_section_type_changes_section_id {b a : Section} {f : Fix}
    (h : f ∈ track_section_type_changes b a) : f.section_id = a.id := by
  unfold track_section_type_changes at h
  split at h
  · rw [List.mem_singleton.mp h]
  · cases h

theorem dictFindPos_isSome_iff (m : List (String × Nat)) (k : String) :
    (dictFindPos m k).isSome ↔ k ∈ m.map Prod.fst := by
  unfold dictFindPos
  have hiso : ∀ o : Option (String × Nat), (o.map (fun p => p.2)).isSome = o.isSome := by
    intro o; cases o <;> rfl
  rw [hiso, List.find?_isSome]
  simp only [List.mem_map, decide_eq_true_eq]

theorem keys_dictAssign (m : List (String × Nat)) (k' : String) (v : Nat) :
    (dictAssign m k' v).map Prod.fst =
      if dictContains m k' then m.map Prod.fst else m.map Prod.fst ++ [k'] := by
  unfold dictAssign
  split
  · rw [List.map_map]
    apply List.map_congr_left
    intro p _
    by_cases hp : p.1 = k' <;> simp [hp]
  · simp

theorem keys_positionsDict_aux (ss : List Section) (l : List (Nat × Section))
    (m : List (String × Nat)) (hl : ∀ p ∈ l, p.2 ∈ ss) (k : String)
    (h : k ∈ (l.foldl (fun m p => dictAssign m p.2.id p.1) m).map Prod.fst) :
    k ∈ m.map Prod.fst ∨ ∃ s ∈ ss, s.id = k := by
  induction l generalizing m with
  | nil => exact Or.inl h
  | cons p rest ih =>
    rw [List.foldl_cons] at h
    rcases ih (dictAssign m p.2.id p.1) (fun q hq => hl q (List.mem_cons_of_mem p hq)) h
      with h1 | h1
    · rw [keys_dictAssign] at h1
      split at h1
      · exact Or.inl h1
      · rcases List.mem_append.mp h1 with h2 | h2
        · exact Or.inl h2
        · refine Or.inr ⟨p.2, hl p (List.mem_cons_self p rest), ?_⟩
          rw [List.mem_singleton.mp h2]
    · exact Or.inr h1

theorem keys_positionsDict (ss : List Section) (k : String)
    (h : k ∈ (positionsDict ss).map Prod.fst) : ∃ s ∈ ss, s.id = k := by
  unfold positionsDict at h
  rcases keys_positionsDict_aux ss ss.enum [] (fun p hp => List.snd_mem_of_mem_enum hp)
      k h with h1 | h1
  · cases h1
  · exact h1

theorem mem_reorderStep {before after : List Section} {fixes : List Fix}
    {p : String × Nat} {f : Fix} (h : f ∈ reorderStep before after fixes p) :
    f ∈ fixes ∨
      (f.section_id = p.1 ∧ (dictFindPos (positionsDict before) p.1).isSome) := by
  unfold reorderStep at h
  split at h
  next beforePos heq =>
    split at h
    · rcases List.mem_append.mp h with h1 | h1
      · exact Or.inl h1
      · refine Or.inr ⟨?_, by rw [heq]; rfl⟩
        rw [List.mem_singleton.mp h1]
        rfl
    · exact Or.inl h
  next heq => exact Or.inl h

theorem mem_foldl_reorderStep {before after : List Section} {f : Fix} :
    ∀ (l : List (String × Nat)) (acc : List Fix),
      f ∈ l.foldl (reorderStep before after) acc →
      f ∈ acc ∨ ∃ p ∈ l,
        f.section_id = p.1 ∧ (dictFindPos (positionsDict before) p.1).isSome := by
  intro l
  induction l with
  | nil => exact fun acc h => Or.inl h
  | cons p rest ih =>
    intro acc h
    rw [List.foldl_cons] at h
    rcases ih _ h with h1 | h1
    · rcases mem_reorderStep h1 with h2 | h2
      · exact Or.inl h2
      · exact Or.inr ⟨p, List.mem_cons_self p rest, h2⟩
    · obtain ⟨q, hq, hq2⟩ := h1
      exact Or.inr ⟨q, List.mem_cons_of_mem p hq, hq2⟩

theorem track_section_reordering_section_id {before after : List Section} {f : Fix}
    (h : f ∈ track_section_reordering before after) :
    ∃ s ∈ before, s.id = f.section_id := by
  unfold track_section_reordering at h
  rcases mem_foldl_reorderStep _ _ h with h1 | h1
  · cases h1
  · obtain ⟨p, _, hid, hsome⟩ := h1
    obtain ⟨s, hs, hsid⟩ := keys_positionsDict before p.1
      ((dictFindPos_isSome_iff _ _).mp hsome)
    exact ⟨s, hs, by rw [hsid, hid]⟩

theorem mem_perSectionStep {before : List Section} {fixes : List Fix} {a : Section}
    {f : Fix} (h : f ∈ perSectionStep before fixes a) :
    f ∈ fixes ∨ (f.section_id = a.id ∧ ∃ s ∈ before, s.id = a.id) := by
  unfold perSectionStep at h
  cases hby : sectionById before a.id with
  | none => rw [hby] at h; exact Or.inl h
  | some b =>
    rw [hby] at h
    obtain ⟨hb, hbid⟩ := sectionById_mem hby
    rcases List.mem_append.mp h with h3 | h3
    swap
    · exact Or.inr ⟨track_section_type_changes_section_id h3, b, hb, hbid⟩
    rcases List.mem_append.mp h3 with h4 | h4
    swap
    · exact Or.inr ⟨track_content_changes_section_id h4, b, hb, hbid⟩
    rcases List.mem_append.mp h4 with h5 | h5
    swap
    · exact Or.inr ⟨track_font_changes_section_id h5, b, hb, hbid⟩
    rcases List.mem_append.mp h5 with h6 | h6
    · exact Or.inl h6
    · exact Or.inr ⟨track_heading_changes_section_id h6, b, hb, hbid⟩

theorem track_changes_section_id {before : ParsedDocument}
    {after : FormattedDocument} {f : Fix} (h : f ∈ track_changes before after) :
    ∃ s ∈ before.sections, s.id = f.section_id := by
  unfold track_changes at h
  dsimp only at h
  suffices haux : ∀ (l : List Section) (acc : List Fix),
      f ∈ l.foldl (perSectionStep before.sections) acc →
      f ∈ acc ∨ ∃ s ∈ before.sections, s.id = f.section_id by
    rcases haux after.sections
        (track_section_reordering before.sections after.sections) h with h1 | h1
    · exact track_section_reordering_section_id h1
    · exact h1
  intro l
  induction l with
  | nil => exact fun acc h1 => Or.inl h1
  | cons a rest ih =>
    intro acc h1
    rw [List.foldl_cons] at h1
    rcases ih _ h1 with h2 | h2
    · rcases mem_perSectionStep h2 with h3 | h3
      · exact Or.inl h3
      · obtain ⟨hfid, s, hs, hsid⟩ := h3
        exact Or.inr ⟨s, hs, by rw [hsid, hfid]⟩
    · exact Or.inr h2

/-- C9: a Section present in the after document whose id has no counterpart
in the before document yields zero Fix records (of any kind, including
section_reordering): every Fix emitted by track_changes carries the id of
some before-section. -/
theorem C9_no_fixes_for_new_sections (before : ParsedDocument)
    (after : FormattedDocument) (s : Section) (_hs : s ∈ after.sections)
    (hid : s.id ∉ before.sections.map Section.id) :
    (track_changes before after).filter (fun f => decide (f.section_id = s.id)) = [] := by
  rw [List.filter_eq_nil_iff]
  intro f hf
  simp only [decide_eq_true_eq]
  intro heq
  obtain ⟨b, hb, hbid⟩ := track_changes_section_id hf
  exact hid (List.mem_map.mpr ⟨b, hb, by rw [hbid, heq]⟩)

/-- C9 witness: the after document holds a section "new1" absent from the
before document; track_changes emits no fix for it. -/
theorem C9_no_fixes_for_new_sections_witness :
    (track_changes c9ex_before c9ex_after).filter
      (fun f => decide (f.section_id = "new1")) = [] :=
  C9_no_fixes_for_new_sections c9ex_before c9ex_after c9ex_newSection
    (List.mem_cons_of_mem _ (List.mem_cons_self _ _)) (by decide)

/-! ## C3 -/

theorem convert_intext_citations_id_type (st : CitState) (s : Section) :
    (convert_intext_citations st s).1.id = s.id ∧
      (convert_intext_citations st s).1.type = s.type := by
  unfold convert_intext_citations
  exact ⟨Section.id_withContent s _, Section.type_withContent s _⟩

theorem convertStep_fst (refsIdx : Nat) (citations : List String)
    (acc : List Section × CitState) (p : Nat × Section) :
    ∃ x, (convertStep refsIdx citations acc p).1 = acc.1 ++ [x] ∧
      x.id = p.2.id ∧ x.type = p.2.type := by
  unfold convertStep
  by_cases h : p.1 = refsIdx
  · rw [if_pos h]
    exact ⟨_, rfl, Section.id_withContent _ _, Section.type_withContent _ _⟩
  · rw [if_neg h]
    exact ⟨_, rfl, (convert_intext_citations_id_type _ _).1,
      (convert_intext_citations_id_type _ _).2⟩

theorem foldl_convertStep_proj (refsIdx : Nat) (citations : List String) :
    ∀ (ps : List (Nat × Section)) (acc : List Section × CitState),
      ((ps.foldl (convertStep refsIdx citations) acc).1).map
          (fun s => (s.id, s.type)) =
        (acc.1).map (fun s => (s.id, s.type)) ++
          ps.map (fun p => (p.2.id, p.2.type)) := by
  intro ps
  induction ps with
  | nil => intro acc; simp
  | cons p rest ih =>
    intro acc
    rw [List.foldl_cons, ih]
    obtain ⟨x, hx, hxid, hxty⟩ := convertStep_fst refsIdx citations acc p
    rw [hx, List.map_append, List.map_cons]
    simp [hxid, hxty, List.append_assoc]

theorem convert_references_proj (l : List Section) :
    ((convert_references l).1).map (fun s => (s.id, s.type)) =
      l.map (fun s => (s.id, s.type)) := by
  unfold convert_references
  cases hf : l.find? (fun s => decide (s.type = SectionType.REFERENCES)) with
  | none => rfl
  | some refs =>
    rw [foldl_convertStep_proj]
    have henum : ∀ (ps : List Section),
        ps.enum.map (fun p => (p.2.id, p.2.type)) =
          ps.map (fun s => (s.id, s.type)) := by
      intro ps
      rw [show ps.enum.map (fun p => (p.2.id, p.2.type)) =
          ps.enum.map ((fun s => (s.id, s.type)) ∘ Prod.snd) from rfl]
      rw [← List.map_map, List.enum_map_snd]
    rw [henum]
    rfl

theorem mem_reorder_of_mem {l : List Section} {s : Section} (hs : s ∈ l)
    (ht : s.type ≠ SectionType.UNKNOWN) : s ∈ reorder_sections l := by
  rw [reorder_sections_eq_stableBucketSort]
  unfold stableBucketSort
  rw [List.mem_flatten]
  refine ⟨l.filter (fun x => decide (x.type = s.type)), ?_, ?_⟩
  · apply List.mem_map.mpr
    refine ⟨s.type, ?_, rfl⟩
    cases htv : s.type <;> first | decide | exact absurd htv ht
  · exact List.mem_filter.mpr ⟨hs, by simp⟩

theorem applyNumberingStep_fst (acc : List Section × Nat) (s : Section) :
    ∃ x, (applyNumberingStep acc s).1 = acc.1 ++ [x] ∧ x.id = s.id := by
  unfold applyNumberingStep
  by_cases h : decide (s.type ∈ numbered_types) = true
  · rw [if_pos h]
    dsimp only
    cases hsub : ((s.withFormattedHeading _).withHeadingFontRule
        (some mainHeadingFontRule)).subsections with
    | none =>
      exact ⟨_, rfl, by simp⟩
    | some subs =>
      dsimp only
      by_cases hse : subs.isEmpty
      · rw [if_pos hse]
        exact ⟨_, rfl, by simp⟩
      · rw [if_neg hse]
        exact ⟨_, rfl, by simp⟩
  · rw [if_neg h]
    dsimp only
    refine ⟨_, rfl, ?_⟩
    repeat' split
    all_goals simp

theorem apply_numbering_ids :
    ∀ (l : List Section) (acc : List Section × Nat),
      ((l.foldl applyNumberingStep acc).1).map Section.id =
        (acc.1).map Section.id ++ l.map Section.id := by
  intro l
  induction l with
  | nil => intro acc; simp
  | cons s rest ih =>
    intro acc
    rw [List.foldl_cons, ih]
    obtain ⟨x, hx, hxid⟩ := applyNumberingStep_fst acc s
    rw [hx, List.map_append, List.map_cons]
    simp [hxid, List.append_assoc]

/-- C3 (amended): every section of a canonical (non-Unknown) type present in
the document given to the Formatting Engine reappears, with the same id, in
the formatted output; sections of type Unknown are dropped by canonical
reordering (see the counterexample). -/
theorem C3_nonunknown_sections_preserved (doc : ParsedDocument) (s : Section)
    (hs : s ∈ doc.sections) (ht : s.type ≠ SectionType.UNKNOWN) :
    ∃ s', s' ∈ (format doc).sections ∧ s'.id = s.id := by
  have hsec : (format doc).sections =
      apply_numbering (reorder_sections
        (convert_references (doc.sections.map apply_font_rules)).1) := rfl
  -- stage 1: font rules
  have h1 : apply_font_rules s ∈ doc.sections.map apply_font_rules :=
    List.mem_map_of_mem apply_font_rules hs
  have h1id : (apply_font_rules s).id = s.id := Section.id_withFontRule s _
  have h1ty : (apply_font_rules s).type = s.type := Section.type_withFontRule s _
  -- stage 2: citation conversion preserves (id, type) pointwise
  have h2 : (s.id, s.type) ∈
      ((convert_references (doc.sections.map apply_font_rules)).1).map
        (fun x => (x.id, x.type)) := by
    rw [convert_references_proj]
    exact List.mem_map.mpr ⟨apply_font_rules s, h1, by rw [h1id, h1ty]⟩
  obtain ⟨s₂, hs₂, hs₂eq⟩ := List.mem_map.mp h2
  have hs₂id : s₂.id = s.id := congrArg Prod.fst hs₂eq
  have hs₂ty : s₂.type = s.type := congrArg Prod.snd hs₂eq
  -- stage 3: reordering keeps non-Unknown sections
  have h3 : s₂ ∈ reorder_sections
      ((convert_references (doc.sections.map apply_font_rules)).1) :=
    mem_reorder_of_mem hs₂ (by rw [hs₂ty]; exact ht)
  -- stage 4: numbering preserves ids pointwise
  have hids : (apply_numbering (reorder_sections
      ((convert_references (doc.sections.map apply_font_rules)).1))).map Section.id =
      (reorder_sections
        ((convert_references (doc.sections.map apply_font_rules)).1)).map
        Section.id := by
    unfold apply_numbering
    rw [apply_numbering_ids]
    simp
  have h4 : s.id ∈ (apply_numbering (reorder_sections
      ((convert_references (doc.sections.map apply_font_rules)).1))).map
        Section.id := by
    rw [hids]
    exact List.mem_map.mpr ⟨s₂, h3, hs₂id⟩
  obtain ⟨s₃, hs₃, hs₃id⟩ := List.mem_map.mp h4
  rw [hsec]
  exact ⟨s₃, hs₃, hs₃id⟩

/-- C3 witness: an Introduction section survives formatting with its id. -/
theorem C3_nonunknown_sections_preserved_witness :
    ∃ s', s' ∈ (format c3ex_keepdoc).sections ∧ s'.id = "i1" :=
  C3_nonunknown_sections_preserved c3ex_keepdoc c3ex_keep
    (List.mem_cons_self _ _) (by decide)

/-- C3 counterexample: the claim as stated fails for Unknown-typed
sections — the only section of `c3ex_doc` (id "u1", type Unknown) has no
counterpart in the formatted output, whose section list is empty, because
`reorder_sections` has no slot for Unknown. -/
theorem C3_unknown_section_dropped_counterexample :
    (format c3ex_doc).sections = [] ∧
    ¬ ∀ s ∈ c3ex_doc.sections,
        ∃ s', s' ∈ (format c3ex_doc).sections ∧ s'.id = s.id := by
  have hempty : (format c3ex_doc).sections = [] := rfl
  refine ⟨hempty, fun hall => ?_⟩
  obtain ⟨s', hs', _⟩ :=
    hall (Section.mk "u1" .UNKNOWN "orphan body" none none 2 none none none false)
      (List.mem_cons_self _ _)
  rw [hempty] at hs'
  cases hs'

/-! ## C2 -/

theorem build_citation_map_next_aux (cs : List String) :
    ∀ st : CitState,
      (cs.foldl
        (fun st c =>
          ⟨dictAssign st.map (pyStrip ⟨c.data.take 100⟩) st.next, st.next + 1⟩)
        st).next = st.next + cs.length := by
  induction cs with
  | nil => intro st; simp
  | cons c rest ih =>
    intro st
    rw [List.foldl_cons, ih]
    simp
    omega

theorem build_citation_map_next (cs : List String) :
    (build_citation_map cs).next = cs.length + 1 := by
  unfold build_citation_map
  rw [build_citation_map_next_aux]
  simp [CitState.fresh]
  omega

theorem find?_eq_none_of_not_contains {m : List (String × Nat)} {k : String}
    (h : dictContains m k = false) :
    m.find? (fun p => decide (p.1 = k)) = none := by
  unfold dictContains at h
  rw [List.find?_eq_none]
  exact List.any_eq_false.mp h

theorem get_citation_number_new (st : CitState) (m : String)
    (h : dictContains st.map (pyStrip m) = false) :
    (get_citation_number st m).1 = "[" ++ toString st.next ++ "]" ∧
      (get_citation_number st m).2.next = st.next + 1 := by
  have hget : dictGet (dictAssign st.map (pyStrip m) st.next) (pyStrip m) = st.next := by
    unfold dictAssign
    rw [h]
    rw [if_neg (show ¬(false = true) from by decide)]
    unfold dictGet
    rw [List.find?_append, find?_eq_none_of_not_contains h]
    simp [List.find?_cons]
  unfold get_citation_number
  dsimp only
  rw [h]
  rw [if_neg (show ¬(false = true) from by decide)]
  rw [hget]
  exact ⟨rfl, rfl⟩

/-- C2 (amended): the in-text number does come from a running-discovery map
keyed by the raw matched substring, but that map and its counter are the
same ones seeded by the References numbering: after `_build_citation_map`
runs on k extracted entries the counter stands at k+1, so the first distinct
in-text marker (whose stripped text is not one of the seeded keys) receives
number k+1 — dependent on how many reference entries were extracted. -/
theorem C2_intext_number_continues_reference_numbering (cs : List String)
    (m : String)
    (h : dictContains (build_citation_map cs).map (pyStrip m) = false) :
    (build_citation_map cs).next = cs.length + 1 ∧
    (get_citation_number (build_citation_map cs) m).1 =
      "[" ++ toString (cs.length + 1) ++ "]" := by
  have hn := build_citation_map_next cs
  refine ⟨hn, ?_⟩
  rw [(get_citation_number_new _ _ h).1, hn]

/-- C2 witness: with one seeded reference entry, the first in-text marker
"(Smith, 2020)" is numbered 2. -/
theorem C2_intext_number_continues_reference_numbering_witness :
    (get_citation_number (build_citation_map ["Jones, A. (2021). B."])
      "(Smith, 2020)").1 = "[2]" :=
  (C2_intext_number_continues_reference_numbering ["Jones, A. (2021). B."]
    "(Smith, 2020)" (by decide)).2

/-- C2 counterexample: the same Introduction body converts to "[2]" when the
References body has one entry and to "[3]" when it has two, so the number
substituted for the first in-text marker depends on how many reference
entries were extracted. -/
theorem C2_intext_number_depends_on_reference_count_counterexample :
    ((convert_references [c2ex_intro, c2ex_refs1]).1.map Section.content) =
      ["Previous work [2] showed.", "[1] Jones, A. (2021). B."] ∧
    ((convert_references [c2ex_intro, c2ex_refs2]).1.map Section.content) =
      ["Previous work [3] showed.",
       "[1] Jones, A. (2021). B.\n\n[2] Brown, B. (2019). C."] :=
  ⟨rfl, rfl⟩

/-! ## C8 -/

theorem all_space_of_strip_empty {l : List Char}
    (h : stripRightChars (stripLeftChars l) = []) : ∀ c ∈ l, isPySpace c = true := by
  intro c hc
  have hsplit := List.takeWhile_append_dropWhile isPySpace l
  unfold stripLeftChars at h
  unfold stripRightChars at h
  have hrev : (l.dropWhile isPySpace).reverse.dropWhile isPySpace = [] := by
    by_contra hne
    exact hne (by
      have := congrArg List.reverse h
      simpa using this)
  have hall : ∀ c ∈ (l.dropWhile isPySpace).reverse, isPySpace c = true :=
    List.dropWhile_eq_nil_iff.mp hrev
  rw [← hsplit] at hc
  rcases List.mem_append.mp hc with h1 | h1
  · exact List.mem_takeWhile_imp h1
  · exact hall c (List.mem_reverse.mpr h1)

theorem exists_nonspace_of_strip_ne {s : String} (h : pyStrip s ≠ "") :
    ∃ c ∈ s.data, isPySpace c = false := by
  by_contra hc
  push_neg at hc
  refine h ?_
  have hall : ∀ c ∈ s.data, isPySpace c = true := by
    intro c hmem
    cases hb : isPySpace c with
    | false => exact absurd hb (hc c hmem)
    | true => rfl
  unfold pyStrip
  have h1 : stripLeftChars s.data = [] :=
    List.dropWhile_eq_nil_iff.mpr hall
  rw [h1]
  rfl

theorem strip_ne_of_exists_nonspace {s : String}
    (h : ∃ c ∈ s.data, isPySpace c = false) : pyStrip s ≠ "" := by
  obtain ⟨c, hc, hcs⟩ := h
  intro heq
  have hdata : stripRightChars (stripLeftChars s.data) = [] := by
    have := congrArg String.data heq
    simpa [pyStrip] using this
  have := all_space_of_strip_empty hdata c hc
  rw [this] at hcs
  cases hcs

theorem mem_piece_of_mem (sep : Char) :
    ∀ (l cur : List Char) (c : Char), (c ∈ cur ∨ c ∈ l) → c ≠ sep →
      ∃ p ∈ splitOnCharAux sep l cur, c ∈ p := by
  intro l
  induction l with
  | nil =>
    intro cur c hmem _
    rcases hmem with h1 | h1
    · exact ⟨cur.reverse, List.mem_cons_self _ _, List.mem_reverse.mpr h1⟩
    · cases h1
  | cons x t ih =>
    intro cur c hmem hsep
    unfold splitOnCharAux
    by_cases hx : x = sep
    · rw [if_pos (by simp [hx])]
      rcases hmem with h1 | h1
      · exact ⟨cur.reverse, List.mem_cons_self _ _, List.mem_reverse.mpr h1⟩
      · rcases List.mem_cons.mp h1 with h2 | h2
        · exact absurd (h2.trans hx) hsep
        · obtain ⟨p, hp, hcp⟩ := ih [] c (Or.inr h2) hsep
          exact ⟨p, List.mem_cons_of_mem _ hp, hcp⟩
    · rw [if_neg (by simp [hx])]
      rcases hmem with h1 | h1
      · exact ih (x :: cur) c (Or.inl (List.mem_cons_of_mem x h1)) hsep
      · rcases List.mem_cons.mp h1 with h2 | h2
        · exact ih (x :: cur) c (Or.inl (h2 ▸ List.mem_cons_self x cur)) hsep
        · exact ih (x :: cur) c (Or.inr h2) hsep

theorem exists_nonblank_line {content : String} (h : pyStrip content ≠ "") :
    ∃ line ∈ pySplitOn content '\n', pyStrip line ≠ "" := by
  obtain ⟨c, hc, hcs⟩ := exists_nonspace_of_strip_ne h
  have hcn : c ≠ '\n' := by
    intro he
    rw [he] at hcs
    cases hcs
  obtain ⟨p, hp, hcp⟩ := mem_piece_of_mem '\n' content.data [] c (Or.inr hc) hcn
  refine ⟨⟨p⟩, ?_, ?_⟩
  · unfold pySplitOn
    exact List.mem_map.mpr ⟨p, hp, rfl⟩
  · exact strip_ne_of_exists_nonspace ⟨c, hcp, hcs⟩

theorem extractLinesAux_ne_nil :
    ∀ (lines : List String) (cur : List String),
      (cur ≠ [] ∨ ∃ line ∈ lines, pyStrip line ≠ "") →
      extractLinesAux lines cur ≠ [] := by
  intro lines
  induction lines with
  | nil =>
    intro cur hyp
    rcases hyp with h1 | h1
    · unfold extractLinesAux
      rw [if_neg (by simpa [List.isEmpty_iff] using h1)]
      simp
    · obtain ⟨line, hl, _⟩ := h1
      cases hl
  | cons line rest ih =>
    intro cur hyp
    unfold extractLinesAux
    by_cases hblank : pyStrip line = ""
    · rw [if_pos hblank]
      by_cases hcur : cur.isEmpty
      · rw [if_pos hcur]
        apply ih
        rcases hyp with h1 | h1
        · exact absurd (List.isEmpty_iff.mp hcur) h1
        · obtain ⟨l2, hl2, hs2⟩ := h1
          rcases List.mem_cons.mp hl2 with h3 | h3
          · exact absurd (h3 ▸ hs2) (by simp [hblank])
          · exact Or.inr ⟨l2, h3, hs2⟩
      · rw [if_neg hcur]
        simp
    · rw [if_neg hblank]
      by_cases hstart : is_citation_start (pyStrip line)
      · rw [if_pos hstart]
        by_cases hcur : cur.isEmpty
        · rw [if_pos hcur]
          exact ih _ (Or.inl (by simp))
        · rw [if_neg hcur]
          simp
      · rw [if_neg hstart]
        exact ih _ (Or.inl (by simp))

theorem extract_citations_nonempty {content : String} (h : pyStrip content ≠ "") :
    extractCitationsLines content ≠ [] ∧
      extract_citations content = extractCitationsLines content := by
  have hne : extractCitationsLines content ≠ [] := by
    unfold extractCitationsLines
    obtain ⟨line, hl, hs⟩ := exists_nonblank_line h
    exact extractLinesAux_ne_nil _ [] (Or.inr ⟨line, hl, hs⟩)
  refine ⟨hne, ?_⟩
  unfold extract_citations
  rw [if_neg (by
    rintro ⟨h1, _⟩
    exact hne (List.isEmpty_iff.mp h1))]

/-- C8 (amended): the Citation Converter is a total function that raises no
exception; when no References-typed section exists, convert_references
returns the input unchanged; and on any non-empty References body the
line-based segmentation itself yields at least one entry (lines that match
no entry-start pattern are accumulated as continuation lines), so the
sentence-split fallback branch is never taken for non-empty input. -/
theorem C8_no_op_and_fallback_unreachable :
    (∀ sections : List Section,
      (∀ s ∈ sections, s.type ≠ SectionType.REFERENCES) →
      (convert_references sections).1 = sections) ∧
    (∀ content : String, pyStrip content ≠ "" →
      extractCitationsLines content ≠ [] ∧
        extract_citations content = extractCitationsLines content) := by
  constructor
  · intro sections hnone
    unfold convert_references
    have hfind : sections.find? (fun s => decide (s.type = SectionType.REFERENCES)) =
        none := by
      rw [List.find?_eq_none]
      intro s hs
      simpa using hnone s hs
    rw [hfind]
  · intro content h
    exact extract_citations_nonempty h

/-- C8 witness: a References-free section list passes through unchanged, and
the one-line body "smith 2020 paper" is segmented without the fallback. -/
theorem C8_no_op_and_fallback_unreachable_witness :
    (convert_references c8ex_sections).1 = c8ex_sections ∧
    extractCitationsLines "smith 2020 paper" ≠ [] :=
  ⟨C8_no_op_and_fallback_unreachable.1 c8ex_sections
      (fun s hs => by rw [List.mem_singleton.mp hs]; decide),
   (C8_no_op_and_fallback_unreachable.2 "smith 2020 paper" (by decide)).1⟩

/-- C8 counterexample: "smith 2020 paper" is a non-empty References body in
which no line matches an entry-start pattern, yet the sentence-split
fallback is NOT applied: the non-matching line is kept as a continuation
entry, and the fallback would have produced a different result. -/
theorem C8_fallback_not_applied_counterexample :
    pyStrip "smith 2020 paper" ≠ "" ∧
    (∀ line ∈ pySplitOn "smith 2020 paper" '\n',
      is_citation_start (pyStrip line) = false) ∧
    extract_citations "smith 2020 paper" = ["smith 2020 paper"] ∧
    sentenceFallback "smith 2020 paper" = ["smith 2020 paper."] ∧
    extract_citations "smith 2020 paper" ≠ sentenceFallback "smith 2020 paper" :=
  ⟨by decide, by decide, rfl, rfl, by decide⟩

/-! ## C4 -/

theorem flushSection_OK (curHeading : Option String) (curContent : List String)
    (curSubs : List Section) (n : Nat)
    (hsubs : ∀ sub ∈ curSubs, wordCountInv sub) :
    ∀ x ∈ (flushSection curHeading curContent curSubs n).1, sectionOK x := by
  intro x hx
  unfold flushSection at hx
  cases curHeading with
  | none => cases hx
  | some h =>
    dsimp only at hx
    rw [List.mem_singleton.mp hx]
    constructor
    · unfold wordCountInv
      simp only [Section.word_count_mk, Section.content_mk]
      by_cases hct : pyStrip (String.intercalate "\n" curContent) = ""
      · rw [if_pos hct, hct]
        rfl
      · rw [if_neg hct]
    · intro sub hsub
      simp only [Section.subsections_mk] at hsub
      by_cases hemp : curSubs.isEmpty
      · rw [if_pos hemp] at hsub
        cases hsub
      · rw [if_neg hemp] at hsub
        exact hsubs sub hsub

theorem mainLoop_invariant (title : Option String) (preList : List String) :
    ∀ (paras : List Para) (st : ParseState),
      (∀ x ∈ st.out, sectionOK x) → (∀ sub ∈ st.curSubs, wordCountInv sub) →
      (∀ x ∈ (mainLoop title preList paras st).out, sectionOK x) ∧
        (∀ sub ∈ (mainLoop title preList paras st).curSubs, wordCountInv sub) := by
  intro paras
  induction paras with
  | nil => exact fun st h1 h2 => ⟨h1, h2⟩
  | cons p rest ih =>
    intro st h1 h2
    unfold mainLoop
    dsimp only
    by_cases hA : title.isSome ∧ pyStrip p.text = title.getD ""
    · rw [if_pos hA]
      exact ih st h1 h2
    · rw [if_neg hA]
      by_cases hB : preList.contains (pyStrip p.text) = true
      · rw [if_pos hB]
        exact ih st h1 h2
      · rw [if_neg hB]
        by_cases hH : is_heading p = true
        · rw [if_pos hH]
          apply ih
          · intro x hx
            rcases List.mem_append.mp hx with hx1 | hx1
            · exact h1 x hx1
            · exact flushSection_OK _ _ _ _ h2 x hx1
          · intro sub hsub
            cases hsub
        · rw [if_neg hH]
          by_cases hS : is_subheading p = true
          · rw [if_pos hS]
            apply ih
            · exact h1
            · intro sub hsub
              rcases List.mem_append.mp hsub with hs1 | hs1
              · exact h2 sub hs1
              · rw [List.mem_singleton.mp hs1]
                unfold wordCountInv
                rfl
          · rw [if_neg hS]
            by_cases hT : pyStrip p.text ≠ ""
            · rw [if_pos hT]
              by_cases hU : (!st.curSubs.isEmpty) = true
              · rw [if_pos hU]
                apply ih
                · exact h1
                · intro sub hsub
                  cases hlast : st.curSubs.getLast? with
                  | none =>
                    rw [hlast] at hsub
                    exact h2 sub hsub
                  | some lastSub =>
                    rw [hlast] at hsub
                    rcases List.mem_append.mp hsub with hs1 | hs1
                    · exact h2 sub ((List.dropLast_sublist st.curSubs).subset hs1)
                    · rw [List.mem_singleton.mp hs1]
                      unfold wordCountInv
                      simp
              · rw [if_neg hU]
                exact ih _ h1 h2
            · rw [if_neg hT]
              exact ih st h1 h2

/-- C4 (amended): after structure building, every Section (including every
subsection) satisfies word_count = whitespace-token count of its body; the
invariant is not preserved by citation rewriting (see counterexample),
which updates content without recomputing word_count. -/
theorem C4_parse_establishes_word_count_invariant (paras : List Para)
    (fp : String) (s : Section) (hs : s ∈ (parse paras fp).sections) :
    wordCountInv s ∧ ∀ sub ∈ s.subsections.getD [], wordCountInv sub := by
  suffices hOK : sectionOK s from hOK
  unfold parse at hs
  dsimp only at hs
  rcases List.mem_append.mp hs with hs1 | hs1
  swap
  · -- the final flush
    refine flushSection_OK _ _ _ _ ?_ s hs1
    exact (mainLoop_invariant _ _ paras ⟨none, [], [], [], _⟩
      (fun x hx => absurd hx (List.not_mem_nil x)) (fun x hx => absurd hx (List.not_mem_nil x))).2
  rcases List.mem_append.mp hs1 with hs2 | hs2
  swap
  · -- the main-loop output
    exact (mainLoop_invariant _ _ paras ⟨none, [], [], [], _⟩
      (fun x hx => absurd hx (List.not_mem_nil x)) (fun x hx => absurd hx (List.not_mem_nil x))).1 s hs2
  rcases List.mem_append.mp hs2 with hs3 | hs3
  · -- the Title section
    cases htitle : extract_title paras with
    | none =>
      rw [htitle] at hs3
      cases hs3
    | some t =>
      rw [htitle] at hs3
      rw [List.mem_singleton.mp hs3]
      exact ⟨rfl, by intro sub h; cases h⟩
  · -- the Authors / Affiliation sections
    cases hpre : collectPreHeading (extract_title paras) paras with
    | nil =>
      rw [hpre] at hs3
      cases hs3
    | cons authors restPre =>
      rw [hpre] at hs3
      cases restPre with
      | nil =>
        dsimp only at hs3
        rw [List.mem_singleton.mp hs3]
        exact ⟨rfl, by intro sub h; cases h⟩
      | cons r2 restPre2 =>
        dsimp only at hs3
        rcases List.mem_cons.mp hs3 with hs4 | hs4
        · rw [hs4]
          exact ⟨rfl, by intro sub h; cases h⟩
        · rw [List.mem_singleton.mp hs4]
          exact ⟨rfl, by intro sub h; cases h⟩

/-- C4 witness: the sections parsed from a small two-paragraph manuscript
satisfy the invariant; instantiated at the Title section. -/
theorem C4_parse_establishes_word_count_invariant_witness :
    wordCountInv (Section.mk "s0" .TITLE "My Title" none none 2 none none none false) ∧
    ∀ sub ∈ (Section.mk "s0" .TITLE "My Title" none none 2 none none none
        false).subsections.getD [], wordCountInv sub :=
  C4_parse_establishes_word_count_invariant c4ex_paras "f.docx"
    (Section.mk "s0" .TITLE "My Title" none none 2 none none none false)
    (by rw [show (parse c4ex_paras "f.docx").sections =
        [Section.mk "s0" .TITLE "My Title" none none 2 none none none false,
         Section.mk "s1" .ABSTRACT "Short abstract body." (some "Abstract") none 3
           none none none false] from rfl]
        exact List.mem_cons_self _ _)

/-- C4 counterexample: citation rewriting shrinks "See (Smith, 2020)." to
"See [2]." (two tokens) but leaves word_count at 3, so the invariant does
not hold in the post-citation-rewriting document state. -/
theorem C4_citation_rewrite_breaks_word_count_counterexample :
    ¬ ∀ s ∈ (convert_references [c4ex_intro, c4ex_refs]).1,
        s.word_count = countTokens s.content := by
  have hconv : (convert_references [c4ex_intro, c4ex_refs]).1 =
      [Section.mk "i1" .INTRODUCTION "See [2]." none none 3 none none none false,
       Section.mk "r1" .REFERENCES "[1] Jones, A. (2021). B." none none 4 none
         none none false] := rfl
  intro hall
  have hmem : (Section.mk "i1" .INTRODUCTION "See [2]." none none 3 none none none
      false) ∈ (convert_references [c4ex_intro, c4ex_refs]).1 := by
    rw [hconv]
    exact List.mem_cons_self _ _
  have h := hall _ hmem
  simp only [Section.word_count_mk, Section.content_mk] at h
  have h2 : countTokens "See [2]." = 2 := rfl
  rw [h2] at h
  cases h

end IEEEPaper
